import Mathlib

/-!
Verification development for the LangGraph-POC repository.

The development embeds, shallowly, the parts of the repository that its
specification's testable properties are about:

* the JSON value model and the fragment of Python's `json.dumps` /
  `json.loads` the agents rely on (numbers are modelled as integers; the
  string escapes modelled are the ones the agents' data can contain);
* the fenced-code-block extraction `re.search(r'<fence>json\s*(.*?)\s*<fence>', ...)`
  used by all three stages of `src/self_reflection.py`;
* the `State` record, the three pipeline stages
  (`evaluate_effectiveness`, `self_reflection`, `reassess`), the routing
  functions, the compiled graph of `create_graph`, and the result
  rendering of `main` from `src/self_reflection.py`;
* `_parse_input` from `src/effect_v5.py`, `parse_input_data` from
  `src/eff_v4.py` and `calculate_control_metrics` from
  `src/effectivenessv3.py`.

Completion-service calls (`ChatOpenAI` invocations) are opaque external
collaborators; they are modelled by an oracle supplying, per stage, either
a response text or the `str(e)` of a raised exception.
-/

set_option maxRecDepth 4096

/-- JSON values as produced by Python's `json.loads`: numbers are modelled
as integers (the agents' schemas only use integral scores), objects keep
their key/value pairs in textual order. -/
inductive Json where
  | null
  | bool (b : Bool)
  | num (n : Int)
  | str (s : String)
  | arr (elems : List Json)
  | obj (fields : List (String × Json))
deriving Repr

/-- One decimal digit as a character, for printing integers. -/
def digitChar (d : Nat) : Char := Char.ofNat (48 + d)

/-- Numeric value of a decimal digit character. -/
def charVal (c : Char) : Nat := c.toNat - 48

/-- Fuel-based accumulator loop printing a natural number in decimal
(the fuel `n + 1` always suffices). -/
def natCharsAux : Nat → Nat → List Char → List Char
  | 0, _, acc => acc
  | fuel + 1, n, acc =>
    if n < 10 then digitChar n :: acc
    else natCharsAux fuel (n / 10) (digitChar (n % 10) :: acc)

/-- Decimal digits of a natural number. -/
def natChars (n : Nat) : List Char := natCharsAux (n + 1) n []

/-- Decimal rendering of an integer, as Python prints ints. -/
def intChars (n : Int) : List Char :=
  if n < 0 then '-' :: natChars n.natAbs else natChars n.toNat

/-- The string escapes emitted by `json.dumps` that the agents' data can
contain (quote, backslash, and the common control characters). -/
def escChar (c : Char) : List Char :=
  if c = '"' then ['\\', '"']
  else if c = '\\' then ['\\', '\\']
  else if c = '\n' then ['\\', 'n']
  else if c = '\t' then ['\\', 't']
  else if c = '\r' then ['\\', 'r']
  else [c]

/-- Escape a whole string body. -/
def escChars (cs : List Char) : List Char := cs.flatMap escChar

mutual
/-- Model of `json.dumps` with its default separators, over character lists. -/
def dumpsL : Json → List Char
  | .bool true => ['t', 'r', 'u', 'e']
  | .bool false => ['f', 'a', 'l', 's', 'e']
  | .null => ['n', 'u', 'l', 'l']
  | .num n => intChars n
  | .str s => '"' :: (escChars s.data ++ ['"'])
  | .arr xs => '[' :: (dumpsArr xs ++ [']'])
  | .obj kvs => '{' :: (dumpsObj kvs ++ ['}'])

/-- Array elements, separated by `", "`. -/
def dumpsArr : List Json → List Char
  | [] => []
  | [x] => dumpsL x
  | x :: y :: rest => dumpsL x ++ ',' :: ' ' :: dumpsArr (y :: rest)

/-- Object members, `"key": value` separated by `", "`. -/
def dumpsObj : List (String × Json) → List Char
  | [] => []
  | [(k, v)] => '"' :: (escChars k.data ++ '"' :: ':' :: ' ' :: dumpsL v)
  | (k, v) :: m :: rest =>
      '"' :: (escChars k.data ++ '"' :: ':' :: ' ' :: dumpsL v)
        ++ ',' :: ' ' :: dumpsObj (m :: rest)
end

/-- Serialize a JSON value (model of `json.dumps`). -/
def Json.dumps (v : Json) : String := String.mk (dumpsL v)

/-- The whitespace characters JSON tolerates between tokens. -/
def isJsonWs (c : Char) : Bool := c = ' ' || c = '\t' || c = '\n' || c = '\r'

/-- Skip inter-token whitespace. -/
def skipWs (cs : List Char) : List Char := cs.dropWhile isJsonWs

/-- Decode one escape sequence character. -/
def unescChar (c : Char) : Option Char :=
  if c = '"' then some '"'
  else if c = '\\' then some '\\'
  else if c = '/' then some '/'
  else if c = 'n' then some '\n'
  else if c = 't' then some '\t'
  else if c = 'r' then some '\r'
  else if c = 'b' then some (Char.ofNat 8)
  else if c = 'f' then some (Char.ofNat 12)
  else none

/-- Parse a string body after its opening quote; returns the body and the
input after the closing quote. -/
def parseStringBody : List Char → Option (List Char × List Char)
  | [] => none
  | c :: rest =>
    if c = '"' then some ([], rest)
    else if c = '\\' then
      match rest with
      | [] => none
      | d :: rest' =>
        (unescChar d).bind fun u =>
          (parseStringBody rest').map fun (body, r) => (u :: body, r)
    else (parseStringBody rest).map fun (body, r) => (c :: body, r)

/-- Numeric value of a non-empty run of decimal digits. -/
def digitsVal (cs : List Char) : Nat := cs.foldl (fun a c => 10 * a + charVal c) 0

/-- Parse a non-empty run of decimal digits. -/
def parseDigits (cs : List Char) : Option (Nat × List Char) :=
  let ds := cs.takeWhile Char.isDigit
  if ds.isEmpty then none else some (digitsVal ds, cs.dropWhile Char.isDigit)

/-- Match a literal keyword tail (`ull`, `rue`, `alse`). -/
def expectLit (lit : List Char) (cs : List Char) (v : Json) : Option (Json × List Char) :=
  if lit.isPrefixOf cs then some (v, cs.drop lit.length) else none

mutual
/-- Fuel-based recursive-descent parser for the JSON fragment the agents
use (model of `json.loads`; floats and `\uXXXX` escapes are outside the
fragment). -/
def parseVal : Nat → List Char → Option (Json × List Char)
  | 0, _ => none
  | fuel + 1, cs =>
    match skipWs cs with
    | [] => none
    | c :: rest =>
      if c = 'n' then expectLit ['u', 'l', 'l'] rest .null
      else if c = 't' then expectLit ['r', 'u', 'e'] rest (.bool true)
      else if c = 'f' then expectLit ['a', 'l', 's', 'e'] rest (.bool false)
      else if c = '"' then
        (parseStringBody rest).map fun (body, r) => (.str (String.mk body), r)
      else if c = '-' then
        (parseDigits rest).map fun (n, r) => (.num (-(n : Int)), r)
      else if c.isDigit then
        (parseDigits (c :: rest)).map fun (n, r) => (.num (n : Int), r)
      else if c = '[' then
        match skipWs rest with
        | [] => none
        | d :: r =>
          if d = ']' then some (.arr [], r)
          else
            (parseVal fuel (d :: r)).bind fun (v, r') =>
              (parseArrTail fuel r').map fun (vs, r'') => (.arr (v :: vs), r'')
      else if c = '{' then
        match skipWs rest with
        | [] => none
        | d :: r =>
          if d = '}' then some (.obj [], r)
          else
            (parseMember fuel (d :: r)).bind fun (kv, r') =>
              (parseObjTail fuel r').map fun (ms, r'') => (.obj (kv :: ms), r'')
      else none

/-- One object member: `"key" : value`. -/
def parseMember : Nat → List Char → Option ((String × Json) × List Char)
  | 0, _ => none
  | fuel + 1, cs =>
    match skipWs cs with
    | [] => none
    | c :: rest =>
      if c = '"' then
        (parseStringBody rest).bind fun (key, r) =>
          match skipWs r with
          | [] => none
          | d :: r' =>
            if d = ':' then
              (parseVal fuel r').map fun (v, r'') => ((String.mk key, v), r'')
            else none
      else none

/-- Remaining array elements after the first: `, v`*, then `]`. -/
def parseArrTail : Nat → List Char → Option (List Json × List Char)
  | 0, _ => none
  | fuel + 1, cs =>
    match skipWs cs with
    | [] => none
    | c :: r =>
      if c = ']' then some ([], r)
      else if c = ',' then
        (parseVal fuel r).bind fun (v, r') =>
          (parseArrTail fuel r').map fun (vs, r'') => (v :: vs, r'')
      else none

/-- Remaining object members after the first: `, "k": v`*, then a brace. -/
def parseObjTail : Nat → List Char → Option (List (String × Json) × List Char)
  | 0, _ => none
  | fuel + 1, cs =>
    match skipWs cs with
    | [] => none
    | c :: r =>
      if c = '}' then some ([], r)
      else if c = ',' then
        (parseMember fuel r).bind fun (kv, r') =>
          (parseObjTail fuel r').map fun (ms, r'') => (kv :: ms, r'')
      else none
end

/-- Model of `json.loads`: parse, then require only whitespace to remain. -/
def jsonParse (s : String) : Option Json :=
  match parseVal (s.data.length + 1) s.data with
  | some (v, rest) => if (skipWs rest).isEmpty then some v else none
  | none => none


/-- Split a character list at the first occurrence of `pat`: returns the
part before the occurrence and the part after it. -/
def splitFirst (pat : List Char) : List Char → Option (List Char × List Char)
  | [] => if pat.isPrefixOf ([] : List Char) then some ([], []) else none
  | c :: cs =>
    if pat.isPrefixOf (c :: cs) then some ([], (c :: cs).drop pat.length)
    else
      match splitFirst pat cs with
      | some (before, after) => some (c :: before, after)
      | none => none

/-- Strip leading and trailing JSON whitespace (the effect of the
`\s*(.*?)\s*` bracketing in the stages' fence regex). -/
def trimChars (cs : List Char) : List Char :=
  ((cs.dropWhile isJsonWs).reverse.dropWhile isJsonWs).reverse

/-- The backquote character (code point 96) delimiting code fences. -/
def bq : Char := Char.ofNat 96

/-- The three-backtick fence marker. -/
def fenceMark : List Char := [bq, bq, bq]

/-- The opening marker of a fenced JSON block. -/
def fenceJson : List Char := [bq, bq, bq, 'j', 's', 'o', 'n']

/-- Model of `re.search(r'<fence>json\s*(.*?)\s*<fence>', text, re.DOTALL)`:
the group is the text between the first fenced-JSON opening and the next
fence marker, with surrounding whitespace stripped (the leading `\s*` is
greedy, the lazy group ends at the earliest following fence). -/
def extractFenced (text : String) : Option String :=
  match splitFirst fenceJson text.data with
  | none => none
  | some (_, rest) =>
    match splitFirst fenceMark rest with
    | none => none
    | some (mid, _) => some (String.mk (trimChars mid))

/-- The JSON extraction step shared by all three stages of
`src/self_reflection.py` (lines 88-95, 173-180, 243-250): take the first
fenced JSON block if present, otherwise the whole response, then
`json.loads` it; a parse failure raises `json.JSONDecodeError` (modelled
as `Except.error`; the stages catch it and record `str(e)`). -/
def extractSR (text : String) : Except String Json :=
  match jsonParse (match extractFenced text with | some s => s | none => text) with
  | some v => .ok v
  | none => .error "Expecting value"


/-! ## Python-semantics helpers -/

/-- Python truthiness of a JSON-shaped value (`bool(x)`). -/
def pyFalsy : Json → Bool
  | .null => true
  | .bool b => !b
  | .num n => n == 0
  | .str s => s == ""
  | .arr xs => xs.isEmpty
  | .obj kvs => kvs.isEmpty

/-- Dictionary lookup: last binding wins, as later duplicate keys override
earlier ones when `json.loads` builds a `dict`. -/
def lookupLast (kvs : List (String × Json)) (k : String) : Option Json :=
  match kvs with
  | [] => none
  | (k', v) :: rest =>
    match lookupLast rest k with
    | some r => some r
    | none => if k' == k then some v else none

/-- Python `obj[key]` on a parsed JSON value: `KeyError` when the key is
absent, `TypeError` when the value is not a dict (messages abbreviated to
the exceptions' stable prefixes; both are non-empty). -/
def pyGet (v : Json) (k : String) : Except String Json :=
  match v with
  | .obj kvs =>
    match lookupLast kvs k with
    | some x => .ok x
    | none => .error ("'" ++ k ++ "'")
  | _ => .error "TypeError: value is not subscriptable"

mutual
/-- Python `repr` of a JSON-shaped value (quote-style refinements for
strings containing quotes are not modelled; no claim depends on them). -/
def pyRepr : Json → String
  | .null => "None"
  | .bool true => "True"
  | .bool false => "False"
  | .num n => String.mk (intChars n)
  | .str s => "'" ++ s ++ "'"
  | .arr xs => "[" ++ pyReprList xs ++ "]"
  | .obj kvs => "\x7b" ++ pyReprObj kvs ++ "\x7d"

/-- Comma-separated `repr`s of list elements. -/
def pyReprList : List Json → String
  | [] => ""
  | [x] => pyRepr x
  | x :: y :: rest => pyRepr x ++ ", " ++ pyReprList (y :: rest)

/-- Comma-separated `'key': repr` pairs of dict members. -/
def pyReprObj : List (String × Json) → String
  | [] => ""
  | [(k, v)] => "'" ++ k ++ "': " ++ pyRepr v
  | (k, v) :: m :: rest => "'" ++ k ++ "': " ++ pyRepr v ++ ", " ++ pyReprObj (m :: rest)
end

/-- Python `str(x)` as used by f-string interpolation. -/
def pyStr : Json → String
  | .str s => s
  | v => pyRepr v

/-- Python iteration over a JSON-shaped value, as `for point in xs`
iterates: lists yield elements, strings yield one-character strings,
dicts yield their keys, scalars raise `TypeError`. -/
def pyIter : Json → Except String (List Json)
  | .arr xs => .ok xs
  | .str s => .ok (s.data.map fun c => Json.str (String.mk [c]))
  | .obj kvs => .ok (kvs.map fun kv => Json.str kv.1)
  | _ => .error "TypeError: object is not iterable"

/-! ## The `State` model and pipeline stages of `src/self_reflection.py`

The pydantic `State` does not validate assignments, so the slots filled
from parsed responses hold whatever JSON value the response carried; they
are modelled as `Option Json` (`none` = the pydantic default, never
assigned). `error` and `status` only ever hold strings in the code and are
modelled as such. -/

structure RState where
  assessment_learned : Option Json := none
  error : Option String := none
  input_text : String := ""
  rating : Option Json := none
  rationale : Option String := none
  metrics_evaluation : Option (List (String × Json)) := none
  status : String := "initialized"
  reflection : Option Json := none
  final_assessment : Option Json := none
  final_rating : Option Json := none

/-- The initial context built by `main`: `State(input_text=input_text)`. -/
def initState (t : String) : RState := { input_text := t }

/-- The completion service, per run: each stage issues exactly one
`chain.invoke`, which either returns a response text or raises an
exception whose `str(e)` is recorded. -/
structure Oracle where
  evalResp : Except String String
  reflectResp : Except String String
  reassessResp : Except String String

/-- The `except Exception as e` epilogue shared by all three stages:
`state.error = str(e); state.status = "error"`. -/
def stageFail (s : RState) (e : String) : RState :=
  { s with error := some e, status := "error" }

/-- Python `.items()` on a parsed JSON value: requires a dict. -/
def pyItems : Json → Except String (List (String × Json))
  | .obj kvs => .ok kvs
  | _ => .error "AttributeError: object has no attribute items"

/-- The score-collection loop of `evaluate_effectiveness` (lines 98-100):
`metrics_evaluation[metric] = data["score"]` for each metric, failing at
the first member without a subscriptable `"score"`. -/
def metricsScores : List (String × Json) → Except String (List (String × Json))
  | [] => .ok []
  | (m, d) :: rest =>
    match pyGet d "score" with
    | .error e => .error e
    | .ok sc =>
      match metricsScores rest with
      | .error e => .error e
      | .ok tail => .ok ((m, sc) :: tail)

/-- The rationale lines of `evaluate_effectiveness` line 105:
`f"<metric>: <data.rationale>"` per metric. -/
def rationaleLines : List (String × Json) → Except String (List String)
  | [] => .ok []
  | (m, d) :: rest =>
    match pyGet d "rationale" with
    | .error e => .error e
    | .ok r =>
      match rationaleLines rest with
      | .error e => .error e
      | .ok tail => .ok ((m ++ ": " ++ pyStr r) :: tail)

/-- Stage 1, `evaluate_effectiveness` (lines 25-116).  The state writes
happen in source order, so a failure between two writes (e.g. a missing
`rationale` after line 104 ran) leaves the earlier writes in place. -/
def evaluate_effectiveness (o : Oracle) (s : RState) : RState :=
  match o.evalResp with
  | .error e => stageFail s e
  | .ok content =>
    match extractSR content with
    | .error e => stageFail s e
    | .ok result =>
      match pyGet result "metrics" with
      | .error e => stageFail s e
      | .ok metricsJ =>
       match pyItems metricsJ with
       | .error e => stageFail s e
       | .ok items =>
        match metricsScores items with
        | .error e => stageFail s e
        | .ok me =>
          let s := { s with metrics_evaluation := some me }
          match pyGet result "overall_score" with
          | .error e => stageFail s e
          | .ok sc =>
            let s := { s with rating := some sc }
            match pyGet result "overall_assessment" with
            | .error e => stageFail s e
            | .ok oa =>
              let s := { s with assessment_learned := some oa }
              match rationaleLines items with
              | .error e => stageFail s e
              | .ok lines =>
                { s with rationale := some (String.intercalate "\n" lines),
                         status := "evaluated" }

/-- Stage 2, `self_reflection` (lines 119-196).  Line 183 assigns the raw
`reflection_summary` before line 185 overwrites it with the formatted
text, so a failure in between leaves the raw summary in `reflection`. -/
def self_reflection (o : Oracle) (s : RState) : RState :=
  match o.reflectResp with
  | .error e => stageFail s e
  | .ok content =>
    match extractSR content with
    | .error e => stageFail s e
    | .ok result =>
      match pyGet result "reflection_summary" with
      | .error e => stageFail s e
      | .ok summ =>
        let s := { s with reflection := some summ }
        match pyGet result "feedback_points" with
        | .error e => stageFail s e
        | .ok fp =>
         match pyIter fp with
         | .error e => stageFail s e
         | .ok pts =>
           let feedback :=
             String.intercalate "\n" (pts.map fun p => "- " ++ pyStr p)
           match pyGet result "perspective_changes" with
           | .error e => stageFail s e
           | .ok pc =>
             { s with
               reflection := some (.str
                 (pyStr summ ++ "\n\nKey feedback points:\n" ++ feedback
                   ++ "\n\nPerspective changes to consider: " ++ pyStr pc)),
               status := "reflected" }

/-- Stage 3, `reassess` (lines 199-265).  `final_rating` is written before
`final_assessment`; the parsed `final_score` is stored unvalidated. -/
def reassess (o : Oracle) (s : RState) : RState :=
  match o.reassessResp with
  | .error e => stageFail s e
  | .ok content =>
    match extractSR content with
    | .error e => stageFail s e
    | .ok result =>
      match pyGet result "final_score" with
      | .error e => stageFail s e
      | .ok fs =>
        let s := { s with final_rating := some fs }
        match pyGet result "final_assessment" with
        | .error e => stageFail s e
        | .ok fa =>
          { s with final_assessment := some fa, status := "completed" }

/-- Python truthiness of the `Optional[str]` error slot: `None` and the
empty string are falsy. -/
def errTruthy : Option String → Bool
  | none => false
  | some s => !(s == "")

/-- Routing after `evaluate` (lines 268-271). -/
def decide_after_evaluation (s : RState) : String :=
  if errTruthy s.error then "error" else "reflect"

/-- Routing after `reflect` (lines 273-276). -/
def decide_after_reflection (s : RState) : String :=
  if errTruthy s.error then "error" else "reassess"

/-- Routing after `reassess` (lines 278-281). -/
def decide_after_reassessment (s : RState) : String :=
  if errTruthy s.error then "error" else "complete"

/-- The compiled graph of `create_graph` (lines 284-323), as the list of
contexts after each stage that executes: entry point `evaluate`, then the
conditional edges route either to the next stage or to `END`.  (Both
labels out of `reassess` lead to `END`.) -/
def runTrace (o : Oracle) (s0 : RState) : List RState :=
  let s1 := evaluate_effectiveness o s0
  s1 ::
    (if decide_after_evaluation s1 = "error" then []
     else
       let s2 := self_reflection o s1
       s2 ::
         (if decide_after_reflection s2 = "error" then []
          else [reassess o s2]))

/-- The result of `graph.invoke(initial_state)`: the context at `END`. -/
def runGraph (o : Oracle) (s0 : RState) : RState :=
  (runTrace o s0).getLastD s0

/-- What `main` (lines 437-450) surfaces after the run: the status banner
and `st.session_state.results`, which is only assigned on the
non-truthy-error branch; the results tabs render only from it. -/
structure Report where
  statusText : String
  results : Option RState

/-- The terminal rendering decision of `main`: `if result.error:` shows
only `f"Error: <result.error>"` and leaves `results` unset; otherwise the
success banner is shown and the full context is stored for rendering. -/
def mainReport (res : RState) : Report :=
  match res.error with
  | some m =>
    if m = "" then { statusText := "Evaluation completed successfully!", results := some res }
    else { statusText := "Error: " ++ m, results := none }
  | none => { statusText := "Evaluation completed successfully!", results := some res }

/-! ## `_parse_input` of `src/effect_v5.py` (lines 85-108) -/

/-- The dict state threaded by `ControlEffectivenessAgent._build_graph` in
`effect_v5.py`; `_parse_input` returns exactly the keys `input`,
`history` and `parsed_data`. -/
structure V5State where
  input : Json
  history : List Json := []
  parsed_data : Option Json := none

/-- The reformatting completion call `_parse_input` makes when its input
is an unparseable string (the "ask the model to restructure" fallback). -/
structure V5Oracle where
  resp : String

/-- Stage `_parse_input`: structured inputs pass through; string inputs are
`json.loads`-parsed; on `JSONDecodeError` the completion service is asked
to restructure the text, and if its response is again unparseable the
result is the best-effort `{"raw_text": response.content}` dict. -/
def parseInput5 (o : V5Oracle) (s : V5State) : V5State :=
  match s.input with
  | .str t =>
    match jsonParse t with
    | some data => { s with input := data, parsed_data := some data }
    | none =>
      match jsonParse o.resp with
      | some pd => { s with parsed_data := some pd }
      | none =>
        { s with parsed_data := some (.obj [("raw_text", .str o.resp)]) }
  | v => { s with input := v, parsed_data := some v }

/-! ## `parse_input_data` of `src/eff_v4.py` (lines 113-143) -/

/-- Python's `type(x)` rendering for the unsupported-input message. -/
def pyTypeName : Json → String
  | .null => "<class 'NoneType'>"
  | .bool _ => "<class 'bool'>"
  | .num _ => "<class 'int'>"
  | .str _ => "<class 'str'>"
  | .arr _ => "<class 'list'>"
  | .obj _ => "<class 'dict'>"

/-- The dict state of `eff_v4.py`'s workflow, with the keys its stages
read and write. -/
structure V4State where
  input_data : Option Json := none
  parsed_data : Option Json := none
  metrics : Option Json := none
  identified_patterns : Option Json := none
  effectiveness_rating : Option Json := none
  effectiveness_justification : Option Json := none
  error : Option String := none

/-- Stage `parse_input_data` (eff_v4 lines 113-143): a missing or falsy
`input_data` records an error and returns; dicts and lists pass through;
strings are `json.loads`-parsed with the `JSONDecodeError` message folded
into the error; any other type is unsupported.  (The concrete
`JSONDecodeError` text is abbreviated to its stable prefix.) -/
def parse_input_data (s : V4State) : V4State :=
  match s.input_data with
  | none => { s with error := some "Input data not provided" }
  | some d =>
    if pyFalsy d then { s with error := some "Input data not provided" }
    else
      match d with
      | .obj _ => { s with parsed_data := some d }
      | .arr _ => { s with parsed_data := some d }
      | .str t =>
        match jsonParse t with
        | some p => { s with parsed_data := some p }
        | none =>
          { s with error := some "Error parsing input data: Expecting value" }
      | other =>
        { s with error := some ("Unsupported input data type: " ++ pyTypeName other) }

/-! ## `calculate_control_metrics` of `src/effectivenessv3.py` (lines 167-241) -/

/-- One control record, restricted to the two keys the metrics loop reads
(`control.get("isKey", False)` and `"testResult" in control` /
`control.get("testResult", "")`; the data format stores test results as
strings). -/
structure V3Control where
  isKey : Option Json := none
  testResult : Option String := none

/-- Mirror of the pydantic `ControlMetrics` model with its defaults. -/
structure V3Metrics where
  key_controls_total : Nat := 0
  nonkey_controls_total : Nat := 0
  key_controls_passed : Nat := 0
  key_controls_failed : Nat := 0
  nonkey_controls_passed : Nat := 0
  nonkey_controls_failed : Nat := 0
  controls_without_results : Nat := 0
  data_availability : String := "complete"

/-- The export `metrics.dict()`: the pydantic dict, keys in declaration order. -/
def v3MetricsDict (m : V3Metrics) : Json :=
  .obj [("key_controls_total", .num m.key_controls_total),
        ("nonkey_controls_total", .num m.nonkey_controls_total),
        ("key_controls_passed", .num m.key_controls_passed),
        ("key_controls_failed", .num m.key_controls_failed),
        ("nonkey_controls_passed", .num m.nonkey_controls_passed),
        ("nonkey_controls_failed", .num m.nonkey_controls_failed),
        ("controls_without_results", .num m.controls_without_results),
        ("data_availability", .str m.data_availability)]

/-- The `"no data available"` sentinel dict written alongside the error
when no controls are present (effectivenessv3 lines 183-192). -/
def v3SentinelMetrics : Json :=
  .obj [("key_controls_total", .str "no data available"),
        ("nonkey_controls_total", .str "no data available"),
        ("key_controls_passed", .str "no data available"),
        ("key_controls_failed", .str "no data available"),
        ("nonkey_controls_passed", .str "no data available"),
        ("nonkey_controls_failed", .str "no data available"),
        ("controls_without_results", .str "no data available"),
        ("data_availability", .str "incomplete")]

/-- The dict state of `effectivenessv3.py`'s workflow. -/
structure V3State where
  input_data : Option Json := none
  risks : Option (List Json) := none
  controls : Option (List V3Control) := none
  metrics : Option Json := none
  effectiveness_rating : Option Json := none
  effectiveness_justification : Option Json := none
  error : Option String := none

/-- The per-control body of the metrics loop (lines 199-228). -/
def v3UpdMetrics (m : V3Metrics) (c : V3Control) : V3Metrics :=
  let is_key := !pyFalsy (c.isKey.getD (.bool false))
  let has_results := c.testResult.isSome
  let test_result := c.testResult.getD ""
  let passed := if has_results then test_result.toLower == "passed" else false
  if is_key then
    let m := { m with key_controls_total := m.key_controls_total + 1 }
    if has_results then
      if passed then { m with key_controls_passed := m.key_controls_passed + 1 }
      else { m with key_controls_failed := m.key_controls_failed + 1 }
    else { m with controls_without_results := m.controls_without_results + 1 }
  else
    let m := { m with nonkey_controls_total := m.nonkey_controls_total + 1 }
    if has_results then
      if passed then { m with nonkey_controls_passed := m.nonkey_controls_passed + 1 }
      else { m with nonkey_controls_failed := m.nonkey_controls_failed + 1 }
    else { m with controls_without_results := m.controls_without_results + 1 }

/-- Stage `calculate_control_metrics` (lines 167-241): with no controls
available it records an error AND writes the sentinel metrics dict;
otherwise it folds the loop over the controls, downgrades
`data_availability` when both totals are zero, and stores the export.
(The `self.control_metrics` instance attribute is outside the threaded
state and not modelled.) -/
def calculate_control_metrics (s : V3State) : V3State :=
  let controls := s.controls.getD []
  if controls.isEmpty then
    { s with error := some "No controls available for metric calculation",
             metrics := some v3SentinelMetrics }
  else
    let m := controls.foldl v3UpdMetrics {}
    let m := if m.key_controls_total == 0 && m.nonkey_controls_total == 0
             then { m with data_availability := "incomplete" } else m
    { s with metrics := some (v3MetricsDict m) }

/-! ## Auxiliary definitions for the theorems -/

mutual
/-- Fuel sufficient for `parseVal` on the serialization of a value. -/
def needV : Json → Nat
  | .null => 1
  | .bool _ => 1
  | .num _ => 1
  | .str _ => 1
  | .arr [] => 1
  | .arr (x :: xs) => 1 + needV x + needTailA xs
  | .obj [] => 1
  | .obj (m :: ms) => 2 + needV m.2 + needTailO ms

/-- Fuel sufficient for `parseArrTail` on the remaining elements. -/
def needTailA : List Json → Nat
  | [] => 1
  | x :: t => 1 + needV x + needTailA t

/-- Fuel sufficient for `parseObjTail` on the remaining members. -/
def needTailO : List (String × Json) → Nat
  | [] => 1
  | m :: t => 2 + needV m.2 + needTailO t
end

mutual
/-- No string (value or key) anywhere in the value contains a backtick,
so its serialization cannot collide with the fence markers. -/
def backtickFree : Json → Bool
  | .null => true
  | .bool _ => true
  | .num _ => true
  | .str s => s.data.all fun c => !(c == bq)
  | .arr xs => backtickFreeA xs
  | .obj kvs => backtickFreeO kvs

/-- Predicate `backtickFree` over array elements. -/
def backtickFreeA : List Json → Bool
  | [] => true
  | x :: t => backtickFree x && backtickFreeA t

/-- Predicate `backtickFree` over object members. -/
def backtickFreeO : List (String × Json) → Bool
  | [] => true
  | (k, v) :: t => (k.data.all fun c => !(c == bq)) && backtickFree v && backtickFreeO t
end

/-- The tail rendering of array elements after the first (what follows a
parsed element inside a dumped array). -/
def tailRenderA : List Json → List Char
  | [] => []
  | x :: t => ',' :: ' ' :: (dumpsL x ++ tailRenderA t)

/-- The rendering of one object member, `"key": value`. -/
def memberRender (m : String × Json) : List Char :=
  '"' :: (escChars m.1.data ++ '"' :: ':' :: ' ' :: dumpsL m.2)

/-- The tail rendering of object members after the first. -/
def tailRenderO : List (String × Json) → List Char
  | [] => []
  | m :: t => ',' :: ' ' :: (memberRender m ++ tailRenderO t)

/-- A continuation that cannot extend a just-parsed number: its first
character, if any, is not a digit. -/
def restOk (rest : List Char) : Prop :=
  ∀ c, rest.head? = some c → c.isDigit = false

/-- The status values of the spec's linear order, with their indices. -/
def statusIdx : String → Option Nat
  | "initialized" => some 0
  | "evaluated" => some 1
  | "reflected" => some 2
  | "reassessed" => some 3
  | "completed" => some 4
  | _ => none

/-- The status enumeration of the claim (the linear order plus `error`). -/
def statusEnum : List String :=
  ["initialized", "evaluated", "reflected", "reassessed", "completed", "error"]

/-- One status transition allowed by the claim: strictly forward along the
linear order, from a non-terminal status into the absorbing `error`
status, or staying at `error`. -/
def claimStep (a b : String) : Bool :=
  (match statusIdx a, statusIdx b with
   | some i, some j => i < j
   | _, _ => false)
  || (b == "error" && !(a == "completed") && !(a == "error"))
  || (a == "error" && b == "error")

/-- The statuses seen during a run: the initial one, then the status after
each stage that executed. -/
def statusTrace (o : Oracle) (s0 : RState) : List String :=
  s0.status :: (runTrace o s0).map RState.status

/-- All three stages took their success branch. -/
def happyPath (o : Oracle) (t : String) : Prop :=
  (runTrace o (initState t)).map RState.status = ["evaluated", "reflected", "completed"]

/-- A narrative slot is populated when it was assigned a value and that
value is not JSON `null` (which pydantic would surface as Python `None`). -/
def isPopulated (v : Option Json) : Prop :=
  ∃ x, v = some x ∧ x ≠ Json.null

/-- The completion-service failure messages of a run are non-empty
(`str(e)` of a raised exception is not the empty string). -/
def oracleMsgsNonempty (o : Oracle) : Prop :=
  (∀ e, o.evalResp = .error e → e ≠ "")
  ∧ (∀ e, o.reflectResp = .error e → e ≠ "")
  ∧ (∀ e, o.reassessResp = .error e → e ≠ "")

/-! ### Concrete responses used by witnesses and counterexamples -/

/-- A well-formed evaluation response (one metric suffices for the loop). -/
def evalRespWf : String :=
  "\x7b\"metrics\": \x7b\"clarity\": \x7b\"score\": 5, \"rationale\": \"clear\"\x7d\x7d, \"overall_score\": 4, \"overall_assessment\": \"good\"\x7d"

/-- A well-formed reflection response. -/
def reflRespWf : String :=
  "\x7b\"reflection_summary\": \"solid\", \"feedback_points\": [\"p1\"], \"perspective_changes\": \"none\"\x7d"

/-- A well-formed reassessment response with the given final score. -/
def reasRespWf (n : Int) : String :=
  "\x7b\"final_score\": " ++ String.mk (intChars n) ++ ", \"final_assessment\": \"fine\"\x7d"

/-- Happy-path oracle whose reassessment carries `final_score = 7`. -/
def oracleScore7 : Oracle := ⟨.ok evalRespWf, .ok reflRespWf, .ok (reasRespWf 7)⟩

/-- Happy-path oracle whose reassessment carries `final_score = 3`. -/
def oracleScore3 : Oracle := ⟨.ok evalRespWf, .ok reflRespWf, .ok (reasRespWf 3)⟩

/-- Oracle whose evaluation call raises an exception with empty `str(e)`. -/
def oracleEmptyMsg : Oracle := ⟨.error "", .ok reflRespWf, .ok (reasRespWf 3)⟩

/-- Oracle whose reflection call raises `ServiceError` (`str(e) = "boom"`). -/
def oracleReflectBoom : Oracle := ⟨.ok evalRespWf, .error "boom", .ok (reasRespWf 3)⟩

/-- Oracle whose evaluation call raises with a non-empty message. -/
def oracleEvalBoom : Oracle := ⟨.error "eval down", .ok reflRespWf, .ok (reasRespWf 3)⟩

/-! ## Correctness of the JSON codec -/

theorem charVal_digitChar {d : Nat} (h : d < 10) : charVal (digitChar d) = d := by
  interval_cases d <;> rfl

theorem isDigit_digitChar {d : Nat} (h : d < 10) : (digitChar d).isDigit = true := by
  interval_cases d <;> rfl

theorem natCharsAux_fuel {f f' n : Nat} (acc : List Char) (hf : n < f) (hf' : n < f') :
    natCharsAux f n acc = natCharsAux f' n acc := by
  induction f generalizing n f' acc with
  | zero => omega
  | succ f ih =>
    cases f' with
    | zero => omega
    | succ f' =>
      by_cases h : n < 10
      · simp [natCharsAux, h]
      · have h1 : n / 10 < f := by omega
        have h2 : n / 10 < f' := by omega
        simp only [natCharsAux, if_neg h]
        exact ih _ h1 h2

theorem natCharsAux_acc {f n : Nat} (acc : List Char) (hf : n < f) :
    natCharsAux f n acc = natCharsAux f n [] ++ acc := by
  induction f generalizing n acc with
  | zero => omega
  | succ f ih =>
    by_cases h : n < 10
    · simp [natCharsAux, h]
    · have h1 : n / 10 < f := by omega
      simp only [natCharsAux, if_neg h]
      rw [ih (digitChar (n % 10) :: acc) h1, ih [digitChar (n % 10)] h1,
          List.append_assoc]
      simp

theorem natChars_lt {n : Nat} (h : n < 10) : natChars n = [digitChar n] := by
  simp [natChars, natCharsAux, h]

theorem natChars_ge {n : Nat} (h : 10 ≤ n) :
    natChars n = natChars (n / 10) ++ [digitChar (n % 10)] := by
  have hd : n / 10 < n := by omega
  have h0 : ¬ n < 10 := by omega
  show natCharsAux (n + 1) n [] = _
  simp only [natCharsAux, if_neg h0]
  rw [natCharsAux_acc _ hd, natCharsAux_fuel [] hd (Nat.lt_succ_self _)]
  rfl

theorem natChars_ne_nil (n : Nat) : natChars n ≠ [] := by
  by_cases h : n < 10
  · simp [natChars_lt h]
  · rw [natChars_ge (by omega)]; simp

theorem natChars_all_digit (n : Nat) : ∀ c ∈ natChars n, c.isDigit = true := by
  induction n using Nat.strong_induction_on with
  | _ n ih =>
    by_cases h : n < 10
    · rw [natChars_lt h]
      intro c hc
      simp only [List.mem_singleton] at hc
      subst hc
      exact isDigit_digitChar h
    · rw [natChars_ge (by omega)]
      intro c hc
      rcases List.mem_append.mp hc with h1 | h1
      · exact ih (n / 10) (by omega) c h1
      · simp only [List.mem_singleton] at h1
        subst h1
        exact isDigit_digitChar (Nat.mod_lt _ (by omega))

theorem digitsVal_concat (xs : List Char) (c : Char) :
    digitsVal (xs ++ [c]) = 10 * digitsVal xs + charVal c := by
  simp [digitsVal, List.foldl_append]

theorem digitsVal_natChars (n : Nat) : digitsVal (natChars n) = n := by
  induction n using Nat.strong_induction_on with
  | _ n ih =>
    by_cases h : n < 10
    · rw [natChars_lt h]
      simp [digitsVal, charVal_digitChar h]
    · rw [natChars_ge (by omega), digitsVal_concat,
          ih (n / 10) (by omega), charVal_digitChar (Nat.mod_lt _ (by omega))]
      omega

theorem takeWhile_all_append {p : Char → Bool} {xs rest : List Char}
    (hx : ∀ c ∈ xs, p c = true) (hr : ∀ c, rest.head? = some c → p c = false) :
    (xs ++ rest).takeWhile p = xs ∧ (xs ++ rest).dropWhile p = rest := by
  induction xs with
  | nil =>
    simp only [List.nil_append]
    cases rest with
    | nil => simp
    | cons r t =>
      have hrr := hr r rfl
      simp [List.takeWhile_cons, List.dropWhile_cons, hrr]
  | cons x t ih =>
    have hx0 : p x = true := hx x (by simp)
    have iht := ih fun c hc => hx c (by simp [hc])
    simp [List.takeWhile_cons, List.dropWhile_cons, hx0, iht.1, iht.2]

theorem parseDigits_natChars (n : Nat) {rest : List Char} (hr : restOk rest) :
    parseDigits (natChars n ++ rest) = some (n, rest) := by
  have h := takeWhile_all_append (p := Char.isDigit) (natChars_all_digit n) hr
  have hne : ((natChars n ++ rest).takeWhile Char.isDigit).isEmpty = false := by
    rw [h.1, List.isEmpty_eq_false_iff_exists_mem]
    rcases List.exists_mem_of_ne_nil _ (natChars_ne_nil n) with ⟨c, hc⟩
    exact ⟨c, hc⟩
  simp [parseDigits, hne, h.1, h.2, digitsVal_natChars, natChars_ne_nil n]

theorem parseStringBody_escape (cs rest : List Char) :
    parseStringBody (escChars cs ++ '"' :: rest) = some (cs, rest) := by
  induction cs with
  | nil =>
    show parseStringBody ('"' :: rest) = _
    rw [parseStringBody.eq_def]
    simp
  | cons c t ih =>
    have hsplit : escChars (c :: t) = escChar c ++ escChars t := by
      simp [escChars]
    rw [hsplit, List.append_assoc]
    by_cases h1 : c = '"'
    · subst h1
      rw [show escChar '"' = ['\\', '"'] from rfl, List.cons_append, List.cons_append,
          parseStringBody.eq_def]
      simp [unescChar, ih]
    · by_cases h2 : c = '\\'
      · subst h2
        rw [show escChar '\\' = ['\\', '\\'] from rfl, List.cons_append, List.cons_append,
            parseStringBody.eq_def]
        simp [unescChar, ih]
      · by_cases h3 : c = '\n'
        · subst h3
          rw [show escChar '\n' = ['\\', 'n'] from rfl, List.cons_append, List.cons_append,
              parseStringBody.eq_def]
          simp [unescChar, ih]
        · by_cases h4 : c = '\t'
          · subst h4
            rw [show escChar '\t' = ['\\', 't'] from rfl, List.cons_append, List.cons_append,
                parseStringBody.eq_def]
            simp [unescChar, ih]
          · by_cases h5 : c = '\r'
            · subst h5
              rw [show escChar '\r' = ['\\', 'r'] from rfl, List.cons_append, List.cons_append,
                  parseStringBody.eq_def]
              simp [unescChar, ih]
            · rw [show escChar c = [c] from by simp [escChar, h1, h2, h3, h4, h5],
                  List.singleton_append, parseStringBody.eq_def]
              simp [h1, h2, ih]

theorem skipWs_not_ws {c : Char} {cs : List Char} (h : isJsonWs c = false) :
    skipWs (c :: cs) = c :: cs := by
  simp [skipWs, List.dropWhile_cons, h]

theorem skipWs_ws {c : Char} {cs : List Char} (h : isJsonWs c = true) :
    skipWs (c :: cs) = skipWs cs := by
  simp [skipWs, List.dropWhile_cons, h]

theorem parseVal_congr (fuel : Nat) {cs cs' : List Char} (h : skipWs cs = skipWs cs') :
    parseVal fuel cs = parseVal fuel cs' := by
  cases fuel with
  | zero => rfl
  | succ f => simp only [parseVal, h]

theorem parseVal_space (fuel : Nat) (cs : List Char) :
    parseVal fuel (' ' :: cs) = parseVal fuel cs :=
  parseVal_congr fuel (skipWs_ws rfl)

theorem digit_head_facts {d : Nat} (hd : d < 10) :
    digitChar d ≠ 'n' ∧ digitChar d ≠ 't' ∧ digitChar d ≠ 'f' ∧
    digitChar d ≠ '"' ∧ digitChar d ≠ '-' ∧ (digitChar d).isDigit = true ∧
    isJsonWs (digitChar d) = false ∧ digitChar d ≠ ']' ∧ digitChar d ≠ '}' ∧
    ((digitChar d == bq) = false) ∧ digitChar d ≠ ',' ∧ digitChar d ≠ ':' := by
  interval_cases d <;> refine ⟨by decide, by decide, by decide, by decide, by decide,
    by decide, by decide, by decide, by decide, by decide, by decide, by decide⟩

theorem natChars_head (n : Nat) :
    ∃ d tail, d < 10 ∧ natChars n = digitChar d :: tail := by
  induction n using Nat.strong_induction_on with
  | _ n ih =>
    by_cases h : n < 10
    · exact ⟨n, [], h, by rw [natChars_lt h]⟩
    · rcases ih (n / 10) (by omega) with ⟨d, tail, hd, heq⟩
      refine ⟨d, tail ++ [digitChar (n % 10)], hd, ?_⟩
      rw [natChars_ge (by omega), heq]
      simp

theorem natChars_last (n : Nat) :
    ∃ d, d < 10 ∧ (natChars n).getLast? = some (digitChar d) := by
  by_cases h : n < 10
  · exact ⟨n, h, by rw [natChars_lt h]; rfl⟩
  · refine ⟨n % 10, Nat.mod_lt _ (by omega), ?_⟩
    rw [natChars_ge (by omega), List.getLast?_concat]

theorem dumpsArr_cons (x : Json) (t : List Json) :
    dumpsArr (x :: t) = dumpsL x ++ tailRenderA t := by
  induction t generalizing x with
  | nil => simp [dumpsArr, tailRenderA]
  | cons y t' ih =>
    rw [show dumpsArr (x :: y :: t') = dumpsL x ++ ',' :: ' ' :: dumpsArr (y :: t') from rfl,
        ih y]
    simp [tailRenderA]

theorem dumpsObj_cons (m : String × Json) (t : List (String × Json)) :
    dumpsObj (m :: t) = memberRender m ++ tailRenderO t := by
  induction t generalizing m with
  | nil =>
    obtain ⟨k, v⟩ := m
    simp [dumpsObj, tailRenderO, memberRender]
  | cons m' t' ih =>
    obtain ⟨k, v⟩ := m
    rw [show dumpsObj ((k, v) :: m' :: t')
          = ('"' :: (escChars k.data ++ '"' :: ':' :: ' ' :: dumpsL v))
              ++ ',' :: ' ' :: dumpsObj (m' :: t') from rfl,
        ih m']
    simp [tailRenderO, memberRender]

theorem dumpsL_head (v : Json) :
    ∃ c cs, dumpsL v = c :: cs ∧ isJsonWs c = false ∧ c ≠ ']' ∧ c ≠ '}' := by
  cases v with
  | null => exact ⟨'n', ['u', 'l', 'l'], rfl, by decide, by decide, by decide⟩
  | bool b =>
    cases b with
    | true => exact ⟨'t', ['r', 'u', 'e'], rfl, by decide, by decide, by decide⟩
    | false => exact ⟨'f', ['a', 'l', 's', 'e'], rfl, by decide, by decide, by decide⟩
  | num n =>
    by_cases hneg : n < 0
    · exact ⟨'-', natChars n.natAbs, by simp [dumpsL, intChars, hneg], by decide, by decide,
        by decide⟩
    · obtain ⟨d, tail, hd, heq⟩ := natChars_head n.toNat
      obtain ⟨_, _, _, _, _, _, hws, hrb, hcb, _, _, _⟩ := digit_head_facts hd
      exact ⟨digitChar d, tail, by simp [dumpsL, intChars, hneg, heq], hws, hrb, hcb⟩
  | str s => exact ⟨'"', escChars s.data ++ ['"'], rfl, by decide, by decide, by decide⟩
  | arr xs => exact ⟨'[', dumpsArr xs ++ [']'], rfl, by decide, by decide, by decide⟩
  | obj kvs => exact ⟨'{', dumpsObj kvs ++ ['}'], rfl, by decide, by decide, by decide⟩

theorem restOk_tailA (xs : List Json) (rest : List Char) :
    restOk (tailRenderA xs ++ ']' :: rest) := by
  cases xs with
  | nil =>
    intro c hc
    simp [tailRenderA] at hc
    subst hc
    decide
  | cons y t =>
    intro c hc
    simp [tailRenderA] at hc
    subst hc
    decide

theorem restOk_tailO (ms : List (String × Json)) (rest : List Char) :
    restOk (tailRenderO ms ++ '}' :: rest) := by
  cases ms with
  | nil =>
    intro c hc
    simp [tailRenderO] at hc
    subst hc
    decide
  | cons y t =>
    intro c hc
    simp [tailRenderO] at hc
    subst hc
    decide

theorem parseMember_congr (fuel : Nat) {cs cs' : List Char} (h : skipWs cs = skipWs cs') :
    parseMember fuel cs = parseMember fuel cs' := by
  cases fuel with
  | zero => rfl
  | succ f => simp only [parseMember, h]

theorem parseMember_space (fuel : Nat) (cs : List Char) :
    parseMember fuel (' ' :: cs) = parseMember fuel cs :=
  parseMember_congr fuel (skipWs_ws rfl)

mutual
theorem parseVal_dumps : ∀ (v : Json) (fuel : Nat) (rest : List Char),
    needV v ≤ fuel → restOk rest →
    parseVal fuel (dumpsL v ++ rest) = some (v, rest)
  | .null, fuel, rest, hf, _ => by
    cases fuel with
    | zero => simp [needV] at hf
    | succ g =>
      rw [show dumpsL .null = ['n', 'u', 'l', 'l'] from rfl, parseVal.eq_def]
      simp +decide [skipWs, expectLit, List.isPrefixOf]
  | .bool b, fuel, rest, hf, _ => by
    cases fuel with
    | zero => simp [needV] at hf
    | succ g =>
      cases b <;>
        · rw [parseVal.eq_def]
          simp +decide [skipWs, expectLit, List.isPrefixOf, dumpsL]
  | .num n, fuel, rest, hf, hr => by
    cases fuel with
    | zero => simp [needV] at hf
    | succ g =>
      rw [show dumpsL (.num n) = intChars n from rfl]
      by_cases hneg : n < 0
      · rw [show intChars n = '-' :: natChars n.natAbs from by simp [intChars, hneg]]
        rw [List.cons_append, parseVal.eq_def]
        simp +decide [skipWs]
        rw [parseDigits_natChars _ hr]
        have habs : ((n.natAbs : Int)) = -n := Int.ofNat_natAbs_of_nonpos (by omega)
        simp [habs]
      · rw [show intChars n = natChars n.toNat from by simp [intChars, hneg]]
        obtain ⟨d, tail, hd, heq⟩ := natChars_head n.toNat
        obtain ⟨hn, ht, hf2, hq, hm, hdig, hws, _, _, _, _, _⟩ := digit_head_facts hd
        rw [heq, List.cons_append, parseVal.eq_def]
        simp only [skipWs_not_ws hws]
        rw [if_neg hn, if_neg ht, if_neg hf2, if_neg hq, if_neg hm, if_pos hdig]
        rw [← List.cons_append, ← heq, parseDigits_natChars _ hr]
        have htn : ((n.toNat : Int)) = n := Int.toNat_of_nonneg (by omega)
        simp [htn]
  | .str s, fuel, rest, hf, _ => by
    cases fuel with
    | zero => simp [needV] at hf
    | succ g =>
      rw [show dumpsL (.str s) = '"' :: (escChars s.data ++ ['"']) from rfl, parseVal.eq_def]
      simp +decide [skipWs]
      exact ⟨s.data, parseStringBody_escape _ _, by cases s; rfl⟩
  | .arr [], fuel, rest, hf, _ => by
    cases fuel with
    | zero => simp [needV] at hf
    | succ g =>
      rw [show dumpsL (.arr []) = ['[', ']'] from rfl, parseVal.eq_def]
      simp +decide [skipWs]
  | .arr (x :: xs), fuel, rest, hf, hr => by
    cases fuel with
    | zero => simp [needV] at hf
    | succ g =>
      have hfx : needV x ≤ g := by simp [needV] at hf; omega
      have hft : needTailA xs ≤ g := by simp [needV] at hf; omega
      rw [show dumpsL (.arr (x :: xs)) = '[' :: (dumpsArr (x :: xs) ++ [']']) from rfl,
          dumpsArr_cons, parseVal.eq_def]
      obtain ⟨c, cs, hx, hws, hrb, hcb⟩ := dumpsL_head x
      have hshape : ((dumpsL x ++ tailRenderA xs) ++ [']']) ++ rest
          = c :: (cs ++ (tailRenderA xs ++ ']' :: rest)) := by
        rw [hx]; simp
      rw [List.cons_append, hshape]
      simp +decide [skipWs]
      rw [List.dropWhile_cons, if_neg (by simp [hws])]
      simp only [hrb, if_neg, ite_false, if_false]
      rw [show c :: (cs ++ (tailRenderA xs ++ ']' :: rest))
            = dumpsL x ++ (tailRenderA xs ++ ']' :: rest) from by rw [hx]; simp]
      rw [parseVal_dumps x g _ hfx (restOk_tailA xs rest)]
      simp [parseArrTail_dumps xs g rest hft hr]
  | .obj [], fuel, rest, hf, _ => by
    cases fuel with
    | zero => simp [needV] at hf
    | succ g =>
      rw [show dumpsL (.obj []) = ['{', '}'] from rfl, parseVal.eq_def]
      simp +decide [skipWs]
  | .obj ((k, v) :: ms), fuel, rest, hf, hr => by
    cases fuel with
    | zero => simp [needV] at hf
    | succ g =>
      have hfv : 1 + needV v ≤ g := by simp [needV] at hf; omega
      have hft : needTailO ms ≤ g := by simp [needV] at hf; omega
      rw [show dumpsL (.obj ((k, v) :: ms)) = '{' :: (dumpsObj ((k, v) :: ms) ++ ['}']) from rfl,
          dumpsObj_cons, parseVal.eq_def]
      have hshape : ((memberRender (k, v) ++ tailRenderO ms) ++ ['}']) ++ rest
          = '"' :: ((escChars k.data ++ '"' :: ':' :: ' ' :: dumpsL v)
              ++ (tailRenderO ms ++ '}' :: rest)) := by
        simp [memberRender]
      rw [List.cons_append, hshape]
      simp +decide [skipWs]
      rw [show '"' :: (escChars k.data ++ '"' :: ':' :: ' '
              :: (dumpsL v ++ (tailRenderO ms ++ '}' :: rest)))
            = memberRender (k, v) ++ (tailRenderO ms ++ '}' :: rest) from by
          simp [memberRender]]
      rw [parseMember_dumps k v g _ hfv (restOk_tailO ms rest)]
      simp [parseObjTail_dumps ms g rest hft hr]

theorem parseMember_dumps : ∀ (k : String) (v : Json) (fuel : Nat) (rest : List Char),
    1 + needV v ≤ fuel → restOk rest →
    parseMember fuel (memberRender (k, v) ++ rest) = some ((k, v), rest)
  | k, v, fuel, rest, hf, hr => by
    cases fuel with
    | zero => omega
    | succ g =>
      have hfv : needV v ≤ g := by omega
      rw [show memberRender (k, v) ++ rest
            = '"' :: (escChars k.data ++ '"' :: (':' :: ' ' :: (dumpsL v ++ rest))) from by
          simp [memberRender], parseMember.eq_def]
      simp +decide [skipWs]
      rw [parseStringBody_escape]
      simp +decide [skipWs]
      rw [parseVal_space, parseVal_dumps v g _ hfv hr]

theorem parseArrTail_dumps : ∀ (xs : List Json) (fuel : Nat) (rest : List Char),
    needTailA xs ≤ fuel → restOk rest →
    parseArrTail fuel (tailRenderA xs ++ ']' :: rest) = some (xs, rest)
  | [], fuel, rest, hf, _ => by
    cases fuel with
    | zero => simp [needTailA] at hf
    | succ g =>
      rw [show tailRenderA [] ++ ']' :: rest = ']' :: rest from rfl, parseArrTail.eq_def]
      simp +decide [skipWs]
  | x :: t, fuel, rest, hf, hr => by
    cases fuel with
    | zero => simp [needTailA] at hf
    | succ g =>
      have hfx : needV x ≤ g := by simp [needTailA] at hf; omega
      have hft : needTailA t ≤ g := by simp [needTailA] at hf; omega
      rw [show tailRenderA (x :: t) ++ ']' :: rest
            = ',' :: ' ' :: (dumpsL x ++ (tailRenderA t ++ ']' :: rest)) from by
          simp [tailRenderA], parseArrTail.eq_def]
      simp +decide [skipWs]
      rw [parseVal_space, parseVal_dumps x g _ hfx (restOk_tailA t rest)]
      simp [parseArrTail_dumps t g rest hft hr]

theorem parseObjTail_dumps : ∀ (ms : List (String × Json)) (fuel : Nat) (rest : List Char),
    needTailO ms ≤ fuel → restOk rest →
    parseObjTail fuel (tailRenderO ms ++ '}' :: rest) = some (ms, rest)
  | [], fuel, rest, hf, _ => by
    cases fuel with
    | zero => simp [needTailO] at hf
    | succ g =>
      rw [show tailRenderO [] ++ '}' :: rest = '}' :: rest from rfl, parseObjTail.eq_def]
      simp +decide [skipWs]
  | (k, v) :: t, fuel, rest, hf, hr => by
    cases fuel with
    | zero => simp [needTailO] at hf
    | succ g =>
      have hfv : 1 + needV v ≤ g := by simp [needTailO] at hf; omega
      have hft : needTailO t ≤ g := by simp [needTailO] at hf; omega
      rw [show tailRenderO ((k, v) :: t) ++ '}' :: rest
            = ',' :: ' ' :: (memberRender (k, v) ++ (tailRenderO t ++ '}' :: rest)) from by
          simp [tailRenderO], parseObjTail.eq_def]
      simp +decide [skipWs]
      rw [parseMember_space, parseMember_dumps k v g _ hfv (restOk_tailO t rest)]
      simp [parseObjTail_dumps t g rest hft hr]
end

mutual
theorem needV_le_length : ∀ v : Json, needV v ≤ (dumpsL v).length
  | .null => by simp [needV, dumpsL]
  | .bool b => by cases b <;> simp [needV, dumpsL]
  | .num n => by
    rw [show dumpsL (.num n) = intChars n from rfl]
    have h1 : intChars n ≠ [] := by
      by_cases hneg : n < 0 <;> simp [intChars, hneg, natChars_ne_nil]
    have h2 := List.length_pos.mpr h1
    simp only [needV]
    omega
  | .str s => by simp [needV, dumpsL]
  | .arr [] => by simp [needV, dumpsL, dumpsArr]
  | .arr (x :: xs) => by
    have h1 := needV_le_length x
    have h2 := needTailA_le_length xs
    rw [show dumpsL (.arr (x :: xs)) = '[' :: (dumpsArr (x :: xs) ++ [']']) from rfl,
        dumpsArr_cons]
    simp only [needV, List.length_cons, List.length_append, List.length_singleton]
    omega
  | .obj [] => by simp [needV, dumpsL, dumpsObj]
  | .obj ((k, v) :: ms) => by
    have h1 := needV_le_length v
    have h2 := needTailO_le_length ms
    rw [show dumpsL (.obj ((k, v) :: ms)) = '{' :: (dumpsObj ((k, v) :: ms) ++ ['}']) from rfl,
        dumpsObj_cons]
    simp only [needV, memberRender, List.length_cons, List.length_append,
      List.length_singleton]
    omega

theorem needTailA_le_length : ∀ xs : List Json, needTailA xs ≤ (tailRenderA xs).length + 1
  | [] => by simp [needTailA, tailRenderA]
  | x :: t => by
    have h1 := needV_le_length x
    have h2 := needTailA_le_length t
    simp only [needTailA, tailRenderA, List.length_cons, List.length_append]
    omega

theorem needTailO_le_length : ∀ ms : List (String × Json),
    needTailO ms ≤ (tailRenderO ms).length + 1
  | [] => by simp [needTailO, tailRenderO]
  | (k, v) :: t => by
    have h1 := needV_le_length v
    have h2 := needTailO_le_length t
    simp only [needTailO, tailRenderO, memberRender, List.length_cons, List.length_append]
    omega
end

/-- Round trip at the `json.loads` level: parsing a serialized value
recovers it exactly. -/
theorem jsonParse_dumps (v : Json) : jsonParse (Json.dumps v) = some v := by
  have hlen : needV v ≤ (dumpsL v).length + 1 :=
    le_trans (needV_le_length v) (by omega)
  have hmain := parseVal_dumps v ((dumpsL v).length + 1) [] hlen (fun c hc => by simp at hc)
  rw [List.append_nil] at hmain
  rw [jsonParse.eq_def, show (Json.dumps v).data = dumpsL v from rfl, hmain]
  simp [skipWs]

theorem digit_ne_backtick {c : Char} (h : c.isDigit = true) : c ≠ bq := by
  rintro rfl
  exact absurd h (by decide)

theorem escChar_ne_backtick {c x : Char} (hc : c ≠ bq) (hx : x ∈ escChar c) : x ≠ bq := by
  unfold escChar at hx
  split_ifs at hx <;> simp only [List.mem_cons, List.mem_singleton,
    List.not_mem_nil, or_false] at hx
  · rcases hx with rfl | rfl <;> decide
  · rcases hx with rfl | rfl <;> decide
  · rcases hx with rfl | rfl <;> decide
  · rcases hx with rfl | rfl <;> decide
  · rcases hx with rfl | rfl <;> decide
  · subst hx; exact hc

theorem allStr_ne_backtick {s : String} (hb : (s.data.all fun c => !(c == bq)) = true)
    {d : Char} (hd : d ∈ s.data) : d ≠ bq := by
  have := List.all_eq_true.mp hb d hd
  simpa using this

theorem escChars_ne_backtick {s : String} (hb : (s.data.all fun c => !(c == bq)) = true)
    {c : Char} (hc : c ∈ escChars s.data) : c ≠ bq := by
  rcases List.mem_flatMap.mp (by simpa [escChars] using hc) with ⟨d, hd, hcd⟩
  exact escChar_ne_backtick (allStr_ne_backtick hb hd) hcd

mutual
theorem dumpsL_no_backtick : ∀ v : Json, backtickFree v = true → ∀ c ∈ dumpsL v, c ≠ bq
  | .null, _, c, hc => by
    simp only [dumpsL, List.mem_cons, List.not_mem_nil, or_false] at hc
    rcases hc with rfl | rfl | rfl | rfl <;> decide
  | .bool true, _, c, hc => by
    simp only [dumpsL, List.mem_cons, List.not_mem_nil, or_false] at hc
    rcases hc with rfl | rfl | rfl | rfl <;> decide
  | .bool false, _, c, hc => by
    simp only [dumpsL, List.mem_cons, List.not_mem_nil, or_false] at hc
    rcases hc with rfl | rfl | rfl | rfl | rfl <;> decide
  | .num n, _, c, hc => by
    rw [show dumpsL (.num n) = intChars n from rfl] at hc
    unfold intChars at hc
    split_ifs at hc
    · rcases List.mem_cons.mp hc with rfl | h2
      · decide
      · exact digit_ne_backtick (natChars_all_digit _ c h2)
    · exact digit_ne_backtick (natChars_all_digit _ c hc)
  | .str s, hb, c, hc => by
    rw [show dumpsL (.str s) = '"' :: (escChars s.data ++ ['"']) from rfl] at hc
    rcases List.mem_cons.mp hc with rfl | h2
    · decide
    rcases List.mem_append.mp h2 with h3 | h3
    · exact escChars_ne_backtick (by simpa [backtickFree] using hb) h3
    · simp only [List.mem_singleton] at h3; subst h3; decide
  | .arr [], _, c, hc => by
    simp only [dumpsL, dumpsArr, List.nil_append, List.mem_cons, List.not_mem_nil,
      or_false] at hc
    rcases hc with rfl | rfl <;> decide
  | .arr (x :: xs), hb, c, hc => by
    have hbx : backtickFree x = true ∧ backtickFreeA xs = true := by
      simpa [backtickFree, backtickFreeA, Bool.and_eq_true] using hb
    rw [show dumpsL (.arr (x :: xs)) = '[' :: (dumpsArr (x :: xs) ++ [']']) from rfl,
        dumpsArr_cons] at hc
    rcases List.mem_cons.mp hc with rfl | h2
    · decide
    rcases List.mem_append.mp h2 with h3 | h3
    · rcases List.mem_append.mp h3 with h4 | h4
      · exact dumpsL_no_backtick x hbx.1 c h4
      · exact tailRenderA_no_backtick xs hbx.2 c h4
    · simp only [List.mem_singleton] at h3; subst h3; decide
  | .obj [], _, c, hc => by
    simp only [dumpsL, dumpsObj, List.nil_append, List.mem_cons, List.not_mem_nil,
      or_false] at hc
    rcases hc with rfl | rfl <;> decide
  | .obj ((k, v) :: ms), hb, c, hc => by
    have hbx : (k.data.all fun c => !(c == bq)) = true ∧ backtickFree v = true
        ∧ backtickFreeO ms = true := by
      simpa [backtickFree, backtickFreeO, Bool.and_eq_true, and_assoc] using hb
    rw [show dumpsL (.obj ((k, v) :: ms)) = '{' :: (dumpsObj ((k, v) :: ms) ++ ['}']) from rfl,
        dumpsObj_cons] at hc
    rcases List.mem_cons.mp hc with rfl | h2
    · decide
    rcases List.mem_append.mp h2 with h3 | h3
    · rcases List.mem_append.mp h3 with h4 | h4
      · exact memberRender_no_backtick k v hbx.1 hbx.2.1 c h4
      · exact tailRenderO_no_backtick ms hbx.2.2 c h4
    · simp only [List.mem_singleton] at h3; subst h3; decide

theorem memberRender_no_backtick : ∀ (k : String) (v : Json),
    (k.data.all fun c => !(c == bq)) = true → backtickFree v = true →
    ∀ c ∈ memberRender (k, v), c ≠ bq
  | k, v, hbk, hbv, c, hc => by
    simp only [memberRender] at hc
    rcases List.mem_cons.mp hc with rfl | h2
    · decide
    rcases List.mem_append.mp h2 with h3 | h3
    · exact escChars_ne_backtick hbk h3
    · rcases List.mem_cons.mp h3 with rfl | h4
      · decide
      rcases List.mem_cons.mp h4 with rfl | h5
      · decide
      rcases List.mem_cons.mp h5 with rfl | h6
      · decide
      · exact dumpsL_no_backtick v hbv c h6

theorem tailRenderA_no_backtick : ∀ xs : List Json, backtickFreeA xs = true →
    ∀ c ∈ tailRenderA xs, c ≠ bq
  | [], _, c, hc => by simp [tailRenderA] at hc
  | x :: t, hb, c, hc => by
    have hbx : backtickFree x = true ∧ backtickFreeA t = true := by
      simpa [backtickFreeA, Bool.and_eq_true] using hb
    simp only [tailRenderA] at hc
    rcases List.mem_cons.mp hc with rfl | h2
    · decide
    rcases List.mem_cons.mp h2 with rfl | h3
    · decide
    rcases List.mem_append.mp h3 with h4 | h4
    · exact dumpsL_no_backtick x hbx.1 c h4
    · exact tailRenderA_no_backtick t hbx.2 c h4

theorem tailRenderO_no_backtick : ∀ ms : List (String × Json), backtickFreeO ms = true →
    ∀ c ∈ tailRenderO ms, c ≠ bq
  | [], _, c, hc => by simp [tailRenderO] at hc
  | (k, v) :: t, hb, c, hc => by
    have hbx : (k.data.all fun c => !(c == bq)) = true ∧ backtickFree v = true
        ∧ backtickFreeO t = true := by
      simpa [backtickFreeO, Bool.and_eq_true, and_assoc] using hb
    simp only [tailRenderO] at hc
    rcases List.mem_cons.mp hc with rfl | h2
    · decide
    rcases List.mem_cons.mp h2 with rfl | h3
    · decide
    rcases List.mem_append.mp h3 with h4 | h4
    · exact memberRender_no_backtick k v hbx.1 hbx.2.1 c h4
    · exact tailRenderO_no_backtick t hbx.2.2 c h4
end

theorem splitFirst_nil (pat : List Char) :
    splitFirst pat [] = if pat.isPrefixOf ([] : List Char) then some ([], []) else none := by
  rw [splitFirst.eq_def]

theorem splitFirst_cons (pat : List Char) (c : Char) (cs : List Char) :
    splitFirst pat (c :: cs)
      = if pat.isPrefixOf (c :: cs) then some ([], (c :: cs).drop pat.length)
        else
          match splitFirst pat cs with
          | some (b, a) => some (c :: b, a)
          | none => none := by
  rw [splitFirst.eq_def]

theorem splitFirst_self (pat rest : List Char) (hne : pat ≠ []) :
    splitFirst pat (pat ++ rest) = some ([], rest) := by
  cases pat with
  | nil => simp at hne
  | cons p ps =>
    rw [List.cons_append, splitFirst_cons]
    have hpre : (p :: ps).isPrefixOf (p :: (ps ++ rest)) = true := by
      rw [← List.cons_append]
      exact List.isPrefixOf_iff_prefix.mpr (List.prefix_append _ _)
    rw [if_pos hpre, ← List.cons_append, List.drop_left]

theorem splitFirst_none {pat : List Char} {p : Char} (hp : pat.head? = some p) :
    ∀ cs : List Char, (∀ c ∈ cs, c ≠ p) → splitFirst pat cs = none := by
  obtain ⟨pt, rfl⟩ : ∃ pt, pat = p :: pt := by
    cases pat with
    | nil => simp at hp
    | cons a t =>
      simp only [List.head?_cons, Option.some.injEq] at hp
      exact ⟨t, by rw [hp]⟩
  intro cs
  induction cs with
  | nil =>
    intro _
    rw [splitFirst_nil]
    simp [List.isPrefixOf]
  | cons c cs ih =>
    intro hall
    have hc : c ≠ p := hall c (by simp)
    have hbeq : (p == c) = false := beq_eq_false_iff_ne.mpr (Ne.symm hc)
    rw [splitFirst_cons, if_neg (by simp [List.isPrefixOf, hbeq]),
        ih fun d hd => hall d (by simp [hd])]

theorem splitFirst_mid {pat : List Char} {p : Char} (hp : pat.head? = some p)
    (hne : pat ≠ []) (mid post : List Char) (hmid : ∀ c ∈ mid, c ≠ p) :
    splitFirst pat (mid ++ (pat ++ post)) = some (mid, post) := by
  induction mid with
  | nil => simpa using splitFirst_self pat post hne
  | cons c t ih =>
    have hc : c ≠ p := hmid c (by simp)
    have hbeq : (p == c) = false := beq_eq_false_iff_ne.mpr (Ne.symm hc)
    obtain ⟨pt, hpt⟩ : ∃ pt, pat = p :: pt := by
      cases pat with
      | nil => simp at hp
      | cons a t' =>
        simp only [List.head?_cons, Option.some.injEq] at hp
        exact ⟨t', by rw [hp]⟩
    rw [List.cons_append, splitFirst_cons,
        if_neg (by simp [hpt, List.isPrefixOf, hbeq]),
        ih fun d hd => hmid d (by simp [hd])]

theorem natChars_shape (n : Nat) :
    ∃ A d, d < 10 ∧ natChars n = A ++ [digitChar d] := by
  by_cases h : n < 10
  · exact ⟨[], n, h, by rw [natChars_lt h]; rfl⟩
  · exact ⟨natChars (n / 10), n % 10, Nat.mod_lt _ (by omega), natChars_ge (by omega)⟩

theorem dumpsL_last (v : Json) :
    ∀ c, (dumpsL v).getLast? = some c → isJsonWs c = false := by
  cases v with
  | null =>
    intro c hc
    simp only [dumpsL] at hc
    rw [show (['n', 'u', 'l', 'l'] : List Char).getLast? = some 'l' from rfl] at hc
    simp only [Option.some.injEq] at hc
    subst hc; decide
  | bool b =>
    intro c hc
    cases b <;> simp only [dumpsL] at hc
    · rw [show (['f', 'a', 'l', 's', 'e'] : List Char).getLast? = some 'e' from rfl] at hc
      simp only [Option.some.injEq] at hc
      subst hc; decide
    · rw [show (['t', 'r', 'u', 'e'] : List Char).getLast? = some 'e' from rfl] at hc
      simp only [Option.some.injEq] at hc
      subst hc; decide
  | num n =>
    intro c hc
    rw [show dumpsL (.num n) = intChars n from rfl] at hc
    obtain ⟨A, d, hd, hA⟩ := natChars_shape n.toNat
    obtain ⟨A', d', hd', hA'⟩ := natChars_shape n.natAbs
    unfold intChars at hc
    split_ifs at hc
    · rw [hA', show '-' :: (A' ++ [digitChar d']) = ('-' :: A') ++ [digitChar d'] from rfl,
          List.getLast?_concat] at hc
      simp only [Option.some.injEq] at hc
      subst hc
      exact (digit_head_facts hd').2.2.2.2.2.2.1
    · rw [hA, List.getLast?_concat] at hc
      simp only [Option.some.injEq] at hc
      subst hc
      exact (digit_head_facts hd).2.2.2.2.2.2.1
  | str s =>
    intro c hc
    rw [show dumpsL (.str s) = ('"' :: escChars s.data) ++ ['"'] from by simp [dumpsL],
        List.getLast?_concat] at hc
    simp only [Option.some.injEq] at hc
    subst hc; decide
  | arr xs =>
    intro c hc
    rw [show dumpsL (.arr xs) = ('[' :: dumpsArr xs) ++ [']'] from by simp [dumpsL],
        List.getLast?_concat] at hc
    simp only [Option.some.injEq] at hc
    subst hc; decide
  | obj kvs =>
    intro c hc
    rw [show dumpsL (.obj kvs) = ('{' :: dumpsObj kvs) ++ ['}'] from by simp [dumpsL],
        List.getLast?_concat] at hc
    simp only [Option.some.injEq] at hc
    subst hc; decide

theorem trimChars_wrap (xs : List Char) (hne : xs ≠ [])
    (hhead : ∀ c, xs.head? = some c → isJsonWs c = false)
    (hlast : ∀ c, xs.getLast? = some c → isJsonWs c = false) :
    trimChars ('\n' :: (xs ++ ['\n'])) = xs := by
  obtain ⟨c, t, rfl⟩ : ∃ c t, xs = c :: t := by
    cases xs with
    | nil => simp at hne
    | cons c t => exact ⟨c, t, rfl⟩
  unfold trimChars
  rw [List.dropWhile_cons, if_pos (by decide), List.cons_append, List.dropWhile_cons,
      if_neg (by simp [hhead c rfl])]
  rw [show (c :: (t ++ ['\n'])).reverse = '\n' :: (c :: t).reverse from by simp]
  rw [List.dropWhile_cons, if_pos (by decide)]
  obtain ⟨e, t', hrev⟩ : ∃ e t', (c :: t).reverse = e :: t' := by
    cases h : (c :: t).reverse with
    | nil =>
      have hlen := congrArg List.length h
      simp at hlen
    | cons e t' => exact ⟨e, t', rfl⟩
  have he : isJsonWs e = false := by
    apply hlast
    rw [← List.head?_reverse, hrev]
    rfl
  rw [hrev, List.dropWhile_cons, if_neg (by simp [he]), ← hrev, List.reverse_reverse]

theorem extractFenced_wrap (v : Json) (hb : backtickFree v = true) (post : String) :
    extractFenced ("```json\n" ++ Json.dumps v ++ "\n```" ++ post) = some (Json.dumps v) := by
  have hdata : ("```json\n" ++ Json.dumps v ++ "\n```" ++ post).data
      = fenceJson ++ ('\n' :: (dumpsL v ++ ['\n']) ++ (fenceMark ++ post.data)) := by
    have h1 : ("```json\n").data = fenceJson ++ ['\n'] := by decide
    have h2 : ("\n```").data = '\n' :: fenceMark := by decide
    rw [String.data_append, String.data_append, String.data_append, h1, h2,
        show (Json.dumps v).data = dumpsL v from rfl]
    simp [List.append_assoc]
  have hmid : ∀ c ∈ '\n' :: (dumpsL v ++ ['\n']), c ≠ bq := by
    intro c hc
    rcases List.mem_cons.mp hc with rfl | h2
    · decide
    rcases List.mem_append.mp h2 with h3 | h3
    · exact dumpsL_no_backtick v hb c h3
    · simp only [List.mem_singleton] at h3; subst h3; decide
  unfold extractFenced
  simp only [hdata, splitFirst_self _ _ (show fenceJson ≠ [] by simp [fenceJson]),
    @splitFirst_mid fenceMark bq (by rfl)
      (show fenceMark ≠ [] by simp [fenceMark, bq]) _ post.data hmid]
  obtain ⟨hcne, hhead⟩ : dumpsL v ≠ [] ∧ ∀ c, (dumpsL v).head? = some c → isJsonWs c = false := by
    obtain ⟨c, cs, heq, hws, _, _⟩ := dumpsL_head v
    exact ⟨by simp [heq], fun d hd => by rw [heq] at hd; simp at hd; subst hd; exact hws⟩
  rw [trimChars_wrap _ hcne hhead (dumpsL_last v)]
  rfl

theorem extractFenced_dumps_none (v : Json) (hb : backtickFree v = true) :
    extractFenced (Json.dumps v) = none := by
  unfold extractFenced
  rw [show (Json.dumps v).data = dumpsL v from rfl,
      @splitFirst_none fenceJson bq (by rfl) _ (dumpsL_no_backtick v hb)]

theorem extractSR_wrap (v : Json) (hb : backtickFree v = true) (post : String) :
    extractSR ("```json\n" ++ Json.dumps v ++ "\n```" ++ post) = .ok v := by
  unfold extractSR
  rw [extractFenced_wrap v hb post]
  simp [jsonParse_dumps v]

theorem extractSR_dumps (v : Json) (hb : backtickFree v = true) :
    extractSR (Json.dumps v) = .ok v := by
  unfold extractSR
  rw [extractFenced_dumps_none v hb]
  simp [jsonParse_dumps v]

/-! ## Shape lemmas for the pipeline stages -/

theorem extractSR_error_eq {t : String} {e : String} (h : extractSR t = .error e) :
    e = "Expecting value" := by
  unfold extractSR at h
  split at h
  · simp at h
  · simp only [Except.error.injEq] at h
    exact h.symm

theorem pyGet_error_ne {v : Json} {k e : String} (h : pyGet v k = .error e) : e ≠ "" := by
  unfold pyGet at h
  split at h
  · split at h
    · simp at h
    · simp only [Except.error.injEq] at h
      subst h
      intro heq
      have := congrArg String.length heq
      simp [String.length_append] at this
      exact absurd this.2 (by decide)
  · simp only [Except.error.injEq] at h
    subst h
    decide

theorem pyItems_error_ne {v : Json} {e : String} (h : pyItems v = .error e) : e ≠ "" := by
  cases v <;> simp [pyItems] at h <;> (subst h; decide)

theorem pyIter_error_ne {v : Json} {e : String} (h : pyIter v = .error e) : e ≠ "" := by
  cases v <;> simp [pyIter] at h <;> (subst h; decide)

theorem metricsScores_error_ne {items : List (String × Json)} {e : String}
    (h : metricsScores items = .error e) : e ≠ "" := by
  induction items with
  | nil => simp [metricsScores] at h
  | cons m rest ih =>
    obtain ⟨mk, md⟩ := m
    unfold metricsScores at h
    split at h
    next e' heq =>
      simp only [Except.error.injEq] at h
      subst h
      exact pyGet_error_ne heq
    next sc heq =>
      split at h
      next e' heq2 =>
        simp only [Except.error.injEq] at h
        subst h
        exact ih heq2
      next => simp at h

theorem rationaleLines_error_ne {items : List (String × Json)} {e : String}
    (h : rationaleLines items = .error e) : e ≠ "" := by
  induction items with
  | nil => simp [rationaleLines] at h
  | cons m rest ih =>
    obtain ⟨mk, md⟩ := m
    unfold rationaleLines at h
    split at h
    next e' heq =>
      simp only [Except.error.injEq] at h
      subst h
      exact pyGet_error_ne heq
    next sc heq =>
      split at h
      next e' heq2 =>
        simp only [Except.error.injEq] at h
        subst h
        exact ih heq2
      next => simp at h

theorem evaluate_shape (o : Oracle) (s : RState) :
    (∃ e, (evaluate_effectiveness o s).error = some e
        ∧ (evaluate_effectiveness o s).status = "error"
        ∧ (e ≠ "" ∨ o.evalResp = .error e))
    ∨ (∃ c result me sc oa rat,
        o.evalResp = .ok c ∧ extractSR c = .ok result
        ∧ pyGet result "overall_score" = .ok sc
        ∧ pyGet result "overall_assessment" = .ok oa
        ∧ evaluate_effectiveness o s
            = { s with metrics_evaluation := some me, rating := some sc,
                       assessment_learned := some oa, rationale := some rat,
                       status := "evaluated" }) := by
  have main : ∀ r, evaluate_effectiveness o s = r →
      ((∃ e, r.error = some e ∧ r.status = "error" ∧ (e ≠ "" ∨ o.evalResp = .error e))
      ∨ (∃ c result me sc oa rat,
          o.evalResp = .ok c ∧ extractSR c = .ok result
          ∧ pyGet result "overall_score" = .ok sc
          ∧ pyGet result "overall_assessment" = .ok oa
          ∧ r = { s with metrics_evaluation := some me, rating := some sc,
                         assessment_learned := some oa, rationale := some rat,
                         status := "evaluated" })) := by
    intro r hr
    unfold evaluate_effectiveness at hr
    split at hr
    next e heq => exact hr ▸ .inl ⟨e, rfl, rfl, .inr heq⟩
    next content heq =>
      split at hr
      next e heq2 =>
        exact hr ▸ .inl ⟨e, rfl, rfl, .inl (by rw [extractSR_error_eq heq2]; decide)⟩
      next result heq2 =>
        split at hr
        next e heq3 => exact hr ▸ .inl ⟨e, rfl, rfl, .inl (pyGet_error_ne heq3)⟩
        next metricsJ heq3 =>
          split at hr
          next e heq4 => exact hr ▸ .inl ⟨e, rfl, rfl, .inl (pyItems_error_ne heq4)⟩
          next items heq4 =>
            split at hr
            next e heq5 =>
              exact hr ▸ .inl ⟨e, rfl, rfl, .inl (metricsScores_error_ne heq5)⟩
            next me heq5 =>
              split at hr
              next e heq6 => exact hr ▸ .inl ⟨e, rfl, rfl, .inl (pyGet_error_ne heq6)⟩
              next sc heq6 =>
                split at hr
                next e heq7 =>
                  exact hr ▸ .inl ⟨e, rfl, rfl, .inl (pyGet_error_ne heq7)⟩
                next oa heq7 =>
                  split at hr
                  next e heq8 =>
                    exact hr ▸ .inl ⟨e, rfl, rfl, .inl (rationaleLines_error_ne heq8)⟩
                  next lines heq8 =>
                    exact .inr ⟨content, result, me, sc, oa,
                      String.intercalate "\n" lines, heq, heq2, heq6, heq7, hr.symm⟩
  exact main _ rfl

theorem self_reflection_shape (o : Oracle) (s : RState) :
    (∃ e, (self_reflection o s).error = some e
        ∧ (self_reflection o s).status = "error"
        ∧ (e ≠ "" ∨ o.reflectResp = .error e))
    ∨ (∃ rf, self_reflection o s
        = { s with reflection := some (.str rf), status := "reflected" }) := by
  have main : ∀ r, self_reflection o s = r →
      ((∃ e, r.error = some e ∧ r.status = "error" ∧ (e ≠ "" ∨ o.reflectResp = .error e))
      ∨ (∃ rf, r = { s with reflection := some (.str rf), status := "reflected" })) := by
    intro r hr
    unfold self_reflection at hr
    split at hr
    next e heq => exact hr ▸ .inl ⟨e, rfl, rfl, .inr heq⟩
    next content heq =>
      split at hr
      next e heq2 =>
        exact hr ▸ .inl ⟨e, rfl, rfl, .inl (by rw [extractSR_error_eq heq2]; decide)⟩
      next result heq2 =>
        split at hr
        next e heq3 => exact hr ▸ .inl ⟨e, rfl, rfl, .inl (pyGet_error_ne heq3)⟩
        next summ heq3 =>
          split at hr
          next e heq4 => exact hr ▸ .inl ⟨e, rfl, rfl, .inl (pyGet_error_ne heq4)⟩
          next fp heq4 =>
            split at hr
            next e heq5 => exact hr ▸ .inl ⟨e, rfl, rfl, .inl (pyIter_error_ne heq5)⟩
            next pts heq5 =>
              split at hr
              next e heq6 => exact hr ▸ .inl ⟨e, rfl, rfl, .inl (pyGet_error_ne heq6)⟩
              next pc heq6 => exact .inr ⟨_, hr.symm⟩
  exact main _ rfl

theorem reassess_shape (o : Oracle) (s : RState) :
    (∃ e, (reassess o s).error = some e
        ∧ (reassess o s).status = "error"
        ∧ (e ≠ "" ∨ o.reassessResp = .error e))
    ∨ (∃ c result fs fa,
        o.reassessResp = .ok c ∧ extractSR c = .ok result
        ∧ pyGet result "final_score" = .ok fs
        ∧ pyGet result "final_assessment" = .ok fa
        ∧ reassess o s
            = { s with final_rating := some fs, final_assessment := some fa,
                       status := "completed" }) := by
  have main : ∀ r, reassess o s = r →
      ((∃ e, r.error = some e ∧ r.status = "error" ∧ (e ≠ "" ∨ o.reassessResp = .error e))
      ∨ (∃ c result fs fa,
          o.reassessResp = .ok c ∧ extractSR c = .ok result
          ∧ pyGet result "final_score" = .ok fs
          ∧ pyGet result "final_assessment" = .ok fa
          ∧ r = { s with final_rating := some fs, final_assessment := some fa,
                         status := "completed" })) := by
    intro r hr
    unfold reassess at hr
    split at hr
    next e heq => exact hr ▸ .inl ⟨e, rfl, rfl, .inr heq⟩
    next content heq =>
      split at hr
      next e heq2 =>
        exact hr ▸ .inl ⟨e, rfl, rfl, .inl (by rw [extractSR_error_eq heq2]; decide)⟩
      next result heq2 =>
        split at hr
        next e heq3 => exact hr ▸ .inl ⟨e, rfl, rfl, .inl (pyGet_error_ne heq3)⟩
        next fs heq3 =>
          split at hr
          next e heq4 => exact hr ▸ .inl ⟨e, rfl, rfl, .inl (pyGet_error_ne heq4)⟩
          next fa heq4 => exact .inr ⟨content, result, fs, fa, heq, heq2, heq3, heq4, hr.symm⟩
  exact main _ rfl

theorem runTrace_eq (o : Oracle) (s0 : RState) :
    runTrace o s0 =
      if errTruthy (evaluate_effectiveness o s0).error then [evaluate_effectiveness o s0]
      else if errTruthy (self_reflection o (evaluate_effectiveness o s0)).error then
        [evaluate_effectiveness o s0, self_reflection o (evaluate_effectiveness o s0)]
      else [evaluate_effectiveness o s0, self_reflection o (evaluate_effectiveness o s0),
        reassess o (self_reflection o (evaluate_effectiveness o s0))] := by
  unfold runTrace decide_after_evaluation decide_after_reflection
  by_cases h1 : errTruthy (evaluate_effectiveness o s0).error
  · simp +decide [h1]
  · by_cases h2 : errTruthy (self_reflection o (evaluate_effectiveness o s0)).error
    · simp +decide [h1, h2]
    · simp +decide [h1, h2]

theorem trace_halt (o : Oracle) (t : String) (i : Nat) (si : RState)
    (hget : (runTrace o (initState t)).get? i = some si)
    (herr : errTruthy si.error = true) :
    (runTrace o (initState t)).length = i + 1
      ∧ (runGraph o (initState t)).status = "error" := by
  have htr := runTrace_eq o (initState t)
  by_cases h1 : errTruthy (evaluate_effectiveness o (initState t)).error = true
  · rw [if_pos h1] at htr
    rw [htr] at hget
    unfold runGraph
    rw [htr]
    cases i with
    | zero =>
      refine ⟨rfl, ?_⟩
      rcases evaluate_shape o (initState t) with ⟨e, _, hst, _⟩ | ⟨_, _, _, _, _, _, _, _, _, _, heq⟩
      · simpa [List.getLastD] using hst
      · rw [heq] at h1
        simp [errTruthy, initState] at h1
    | succ j => simp at hget
  · rw [if_neg h1] at htr
    by_cases h2 : errTruthy (self_reflection o (evaluate_effectiveness o (initState t))).error
        = true
    · rw [if_pos h2] at htr
      rw [htr] at hget
      unfold runGraph
      rw [htr]
      cases i with
      | zero =>
        simp only [List.get?_cons_zero, Option.some.injEq] at hget
        subst hget
        exact absurd herr h1
      | succ j =>
        cases j with
        | zero =>
          refine ⟨rfl, ?_⟩
          rcases self_reflection_shape o (evaluate_effectiveness o (initState t)) with
            ⟨e, _, hst, _⟩ | ⟨rf, heq⟩
          · simpa [List.getLastD] using hst
          · rw [heq] at h2
            exact absurd h2 h1
        | succ j2 => simp at hget
    · rw [if_neg h2] at htr
      rw [htr] at hget
      unfold runGraph
      rw [htr]
      cases i with
      | zero =>
        simp only [List.get?_cons_zero, Option.some.injEq] at hget
        subst hget
        exact absurd herr h1
      | succ j =>
        cases j with
        | zero =>
          simp only [List.get?_cons_succ, List.get?_cons_zero, Option.some.injEq] at hget
          subst hget
          exact absurd herr h2
        | succ j2 =>
          cases j2 with
          | zero =>
            refine ⟨rfl, ?_⟩
            rcases reassess_shape o
                (self_reflection o (evaluate_effectiveness o (initState t))) with
              ⟨e, _, hst, _⟩ | ⟨_, _, _, _, _, _, _, _, heq⟩
            · simpa [List.getLastD] using hst
            · simp only [List.get?_cons_succ, List.get?_cons_zero, Option.some.injEq] at hget
              subst hget
              rw [heq] at herr
              exact absurd herr h2
          | succ j3 => simp at hget

/-! ## Claim theorems -/

/-- C1: for every run of the assessment pipeline and every stage N
(Evaluate, Reflect, Reassess), if stage N sets the context's `error`
field to a non-empty value, then no later stage executes (the execution
trace ends at stage N) and the run terminates with `status = "error"`. -/
theorem C1_error_short_circuit (o : Oracle) (t : String) (i : Nat) (si : RState)
    (hget : (runTrace o (initState t)).get? i = some si)
    (m : String) (hm : si.error = some m) (hne : m ≠ "") :
    (runTrace o (initState t)).length = i + 1
      ∧ (runGraph o (initState t)).status = "error" :=
  trace_halt o t i si hget (by rw [hm]; simp [errTruthy, hne])

/-- Witness for C1: a run whose Evaluate stage fails with message
`"eval down"` executes no further stage and ends in `status = "error"`. -/
theorem C1_error_short_circuit_witness :
    (runTrace oracleEvalBoom (initState "x")).length = 0 + 1
      ∧ (runGraph oracleEvalBoom (initState "x")).status = "error" :=
  C1_error_short_circuit oracleEvalBoom "x" 0 _ rfl "eval down" rfl (by decide)

/-- C5: the `error` field is monotonic during a run: once a stage output
holds a non-empty error value, every later stage output in the execution
trace holds exactly the same value (in fact the trace ends there). -/
theorem C5_error_monotonic (o : Oracle) (t : String) (i j : Nat) (si sj : RState)
    (hij : i ≤ j)
    (hgi : (runTrace o (initState t)).get? i = some si)
    (hgj : (runTrace o (initState t)).get? j = some sj)
    (m : String) (hm : si.error = some m) (hne : m ≠ "") :
    sj.error = some m := by
  have h := trace_halt o t i si hgi (by rw [hm]; simp [errTruthy, hne])
  have hjlt : j < (runTrace o (initState t)).length := (List.get?_eq_some.mp hgj).1
  have hji : j = i := by omega
  subst hji
  rw [hgi] at hgj
  simp only [Option.some.injEq] at hgj
  rw [← hgj, hm]

/-- Witness for C5: in the failing-Evaluate run, the error value recorded
at stage 0 is still the error value at stage 0 (the only stage). -/
theorem C5_error_monotonic_witness :
    (evaluate_effectiveness oracleEvalBoom (initState "x")).error = some "eval down" :=
  C5_error_monotonic oracleEvalBoom "x" 0 0 _ _ (by omega) rfl rfl "eval down" rfl (by decide)

/-- C10: each routing function selects the `"error"` edge iff the state's
`error` field is Python-truthy; consequently a state whose `error` holds
the empty string is routed along the success edge by all three routing
functions, as if no error had been recorded. -/
theorem C10_routing_truthiness (s : RState) :
    (decide_after_evaluation s = "error" ↔ errTruthy s.error = true)
    ∧ (decide_after_reflection s = "error" ↔ errTruthy s.error = true)
    ∧ (decide_after_reassessment s = "error" ↔ errTruthy s.error = true)
    ∧ (s.error = some "" →
        decide_after_evaluation s = "reflect"
        ∧ decide_after_reflection s = "reassess"
        ∧ decide_after_reassessment s = "complete") := by
  unfold decide_after_evaluation decide_after_reflection decide_after_reassessment
  by_cases h : errTruthy s.error = true
  · refine ⟨⟨fun _ => h, fun _ => by rw [if_pos h]⟩,
      ⟨fun _ => h, fun _ => by rw [if_pos h]⟩,
      ⟨fun _ => h, fun _ => by rw [if_pos h]⟩, ?_⟩
    intro he
    rw [he] at h
    simp [errTruthy] at h
  · rw [if_neg h, if_neg h, if_neg h]
    exact ⟨⟨fun hh => absurd hh (by decide), fun hh => absurd hh h⟩,
      ⟨fun hh => absurd hh (by decide), fun hh => absurd hh h⟩,
      ⟨fun hh => absurd hh (by decide), fun hh => absurd hh h⟩,
      fun _ => ⟨rfl, rfl, rfl⟩⟩

/-- Witness for C10: a state carrying `error = some ""` is routed along
all three success edges. -/
theorem C10_routing_truthiness_witness :
    decide_after_evaluation { initState "x" with error := some "" } = "reflect"
    ∧ decide_after_reflection { initState "x" with error := some "" } = "reassess"
    ∧ decide_after_reassessment { initState "x" with error := some "" } = "complete" :=
  (C10_routing_truthiness { initState "x" with error := some "" }).2.2.2 rfl

/-- The claim of C4 fails as stated: a stage exception whose `str(e)` is
empty records `error = ""` and `status = "error"`, the empty string is
not truthy, so the next stage still runs and moves `status` from the
supposedly absorbing `"error"` back to a forward status.  Concretely,
with an empty evaluation failure message the observed status sequence is
`initialized, error, reflected, completed`, and the step
`error → reflected` is not an allowed transition. -/
theorem C4_status_forward_cex :
    statusTrace oracleEmptyMsg (initState "x")
      = ["initialized", "error", "reflected", "completed"]
    ∧ claimStep "error" "reflected" = false := by
  constructor
  · rfl
  · decide

/-- C4 (amended): provided every completion-service failure message is
non-empty (stage-internal exception messages always are), the status
values seen during a run all belong to the enumeration and every
consecutive transition is strictly forward along
`initialized, evaluated, reflected, reassessed, completed`, or enters
the absorbing `error` status from a non-terminal status. -/
theorem C4_status_forward_amended (o : Oracle) (t : String)
    (hwf : oracleMsgsNonempty o) :
    List.Chain' (fun a b => claimStep a b = true) (statusTrace o (initState t))
    ∧ ∀ st ∈ statusTrace o (initState t), st ∈ statusEnum := by
  obtain ⟨hwf1, hwf2, hwf3⟩ := hwf
  have htr := runTrace_eq o (initState t)
  by_cases h1 : errTruthy (evaluate_effectiveness o (initState t)).error = true
  · have hst1 : (evaluate_effectiveness o (initState t)).status = "error" := by
      rcases evaluate_shape o (initState t) with ⟨e, _, hst, _⟩
        | ⟨_, _, _, _, _, _, _, _, _, _, heq⟩
      · exact hst
      · rw [heq] at h1
        simp [errTruthy, initState] at h1
    rw [if_pos h1] at htr
    unfold statusTrace
    rw [htr]
    simp only [List.map, hst1, show (initState t).status = "initialized" from rfl]
    exact ⟨by (simp [List.chain'_cons, List.chain'_singleton]; decide), by decide⟩
  · obtain ⟨c₁, r₁, me, sc, oa, rat, _, _, _, _, heq1⟩ :
        ∃ c result me sc oa rat, o.evalResp = .ok c ∧ extractSR c = .ok result
          ∧ pyGet result "overall_score" = .ok sc
          ∧ pyGet result "overall_assessment" = .ok oa
          ∧ evaluate_effectiveness o (initState t)
              = { initState t with metrics_evaluation := some me, rating := some sc,
                                   assessment_learned := some oa, rationale := some rat,
                                   status := "evaluated" } := by
      rcases evaluate_shape o (initState t) with ⟨e, he, _, hor⟩ | hsucc
      · exfalso
        have hene : e ≠ "" := by
          rcases hor with h | h
          · exact h
          · exact hwf1 e h
        rw [he] at h1
        simp [errTruthy, hene] at h1
      · exact hsucc
    have hst1 : (evaluate_effectiveness o (initState t)).status = "evaluated" := by
      rw [heq1]
    have herr1 : (evaluate_effectiveness o (initState t)).error = none := by
      rw [heq1]
      rfl
    by_cases h2 : errTruthy
        (self_reflection o (evaluate_effectiveness o (initState t))).error = true
    · have hst2 : (self_reflection o (evaluate_effectiveness o (initState t))).status
          = "error" := by
        rcases self_reflection_shape o (evaluate_effectiveness o (initState t)) with
          ⟨e, _, hst, _⟩ | ⟨rf, heq⟩
        · exact hst
        · rw [heq] at h2
          simp only at h2
          rw [herr1] at h2
          simp [errTruthy] at h2
      rw [if_neg h1, if_pos h2] at htr
      unfold statusTrace
      rw [htr]
      simp only [List.map, hst1, hst2, show (initState t).status = "initialized" from rfl]
      exact ⟨by (simp [List.chain'_cons, List.chain'_singleton]; decide), by decide⟩
    · obtain ⟨rf, heq2⟩ :
          ∃ rf, self_reflection o (evaluate_effectiveness o (initState t))
            = { evaluate_effectiveness o (initState t) with
                reflection := some (.str rf), status := "reflected" } := by
        rcases self_reflection_shape o (evaluate_effectiveness o (initState t)) with
          ⟨e, he, _, hor⟩ | hsucc
        · exfalso
          have hene : e ≠ "" := by
            rcases hor with h | h
            · exact h
            · exact hwf2 e h
          rw [he] at h2
          simp [errTruthy, hene] at h2
        · exact hsucc
      have hst2 : (self_reflection o (evaluate_effectiveness o (initState t))).status
          = "reflected" := by rw [heq2]
      have herr2 : (self_reflection o (evaluate_effectiveness o (initState t))).error
          = none := by
        rw [heq2]
        simp only
        rw [herr1]
      have hst3 : (reassess o (self_reflection o
            (evaluate_effectiveness o (initState t)))).status = "error"
          ∨ (reassess o (self_reflection o
            (evaluate_effectiveness o (initState t)))).status = "completed" := by
        rcases reassess_shape o (self_reflection o (evaluate_effectiveness o (initState t)))
          with ⟨e, _, hst, _⟩ | ⟨_, _, _, _, _, _, _, _, heq⟩
        · exact .inl hst
        · exact .inr (by rw [heq])
      rw [if_neg h1, if_neg h2] at htr
      unfold statusTrace
      rw [htr]
      rcases hst3 with hst3 | hst3 <;>
        · simp only [List.map, hst1, hst2, hst3,
            show (initState t).status = "initialized" from rfl]
          exact ⟨by (simp [List.chain'_cons, List.chain'_singleton]; decide), by decide⟩

/-- Witness for C4 (amended): a run whose evaluation call fails with the
non-empty message `"eval down"`. -/
theorem C4_status_forward_amended_witness :
    List.Chain' (fun a b => claimStep a b = true)
      (statusTrace oracleEvalBoom (initState "x"))
    ∧ ∀ st ∈ statusTrace oracleEvalBoom (initState "x"), st ∈ statusEnum :=
  C4_status_forward_amended oracleEvalBoom "x"
    ⟨fun e he => by simp [oracleEvalBoom] at he; rw [← he]; decide,
     fun e he => by simp [oracleEvalBoom] at he,
     fun e he => by simp [oracleEvalBoom, reasRespWf] at he⟩

/-- C9: whenever the Reflect stage runs successfully, the returned
context's `rating`, `metrics_evaluation`, `assessment_learned`,
`rationale`, `final_rating`, `final_assessment` and `input_text` equal
their values in the input context; the stage writes only the
`reflection` and `status` fields (the critique never changes the
rating). -/
theorem C9_reflect_frame (o : Oracle) (s : RState)
    (h : (self_reflection o s).status = "reflected") :
    (self_reflection o s).rating = s.rating
    ∧ (self_reflection o s).metrics_evaluation = s.metrics_evaluation
    ∧ (self_reflection o s).assessment_learned = s.assessment_learned
    ∧ (self_reflection o s).rationale = s.rationale
    ∧ (self_reflection o s).final_rating = s.final_rating
    ∧ (self_reflection o s).final_assessment = s.final_assessment
    ∧ (self_reflection o s).input_text = s.input_text
    ∧ (self_reflection o s).error = s.error
    ∧ ∃ rf, self_reflection o s
        = { s with reflection := some (.str rf), status := "reflected" } := by
  rcases self_reflection_shape o s with ⟨e, _, hst, _⟩ | ⟨rf, heq⟩
  · rw [hst] at h
    exact absurd h (by decide)
  · rw [heq]
    exact ⟨rfl, rfl, rfl, rfl, rfl, rfl, rfl, rfl, rf, rfl⟩

/-- Witness for C9: a successful reflection pass on a context carrying
`rating = 4` leaves the rating untouched. -/
theorem C9_reflect_frame_witness :
    (self_reflection oracleScore3 { initState "x" with rating := some (.num 4) }).rating
      = ({ initState "x" with rating := some (.num 4) } : RState).rating :=
  (C9_reflect_frame oracleScore3 { initState "x" with rating := some (.num 4) } rfl).1

/-- The claim of C7 fails as stated: when the completion service raises
`ServiceError` (`str(e) = "boom"`) on the Reflect stage, the terminal
context does retain `rating` from Evaluate, but `main` shows only
`"Error: boom"` and never stores the context in
`st.session_state.results`, so the report exposes no partial result
slots at all. -/
theorem C7_error_report_cex :
    (runGraph oracleReflectBoom (initState "x")).rating = some (.num 4)
    ∧ (runGraph oracleReflectBoom (initState "x")).error = some "boom"
    ∧ (mainReport (runGraph oracleReflectBoom (initState "x"))).results = none
    ∧ (mainReport (runGraph oracleReflectBoom (initState "x"))).statusText = "Error: boom" :=
  ⟨rfl, rfl, rfl, rfl⟩

/-- C7 (amended): for every run terminating with a truthy error, the
terminal report consists of exactly the error banner `"Error: <msg>"`
(the message verbatim) and no result slots: the partial results present
in the terminal context are not part of the report. -/
theorem C7_error_report_amended (o : Oracle) (t : String)
    (h : errTruthy (runGraph o (initState t)).error = true) :
    ∃ m, (runGraph o (initState t)).error = some m ∧ m ≠ ""
      ∧ mainReport (runGraph o (initState t))
          = { statusText := "Error: " ++ m, results := none } := by
  cases herr : (runGraph o (initState t)).error with
  | none => rw [herr] at h; simp [errTruthy] at h
  | some m =>
    rw [herr] at h
    have hm : m ≠ "" := by simpa [errTruthy] using h
    exact ⟨m, rfl, hm, by simp [mainReport, herr, hm]⟩

/-- Witness for C7 (amended): the failing-Reflect run produces exactly
the bare error report. -/
theorem C7_error_report_amended_witness :
    ∃ m, (runGraph oracleReflectBoom (initState "x")).error = some m ∧ m ≠ ""
      ∧ mainReport (runGraph oracleReflectBoom (initState "x"))
          = { statusText := "Error: " ++ m, results := none } :=
  C7_error_report_amended oracleReflectBoom "x" rfl

/-- The claim of C2 fails as stated: on non-JSON input the extraction
step of `self_reflection.py` raises `json.JSONDecodeError` instead of
returning a fallback, and the best-effort fallback of
`effect_v5._parse_input` carries the completion service's reformatted
response under a `raw_text` key — not the original text — with no
`parse_failed` flag. -/
theorem C2_extract_fallback_cex :
    extractSR "hello" = .error "Expecting value"
    ∧ (parseInput5 ⟨"not json"⟩ { input := .str "hello" }).parsed_data
        = some (.obj [("raw_text", .str "not json")])
    ∧ lookupLast [("raw_text", Json.str "not json")] "parse_failed" = none
    ∧ "not json" ≠ "hello" :=
  ⟨rfl, rfl, rfl, by decide⟩

/-- C2 (amended): for every input text that is not parseable as JSON,
the extraction step of `self_reflection.py` raises a parse error
(`JSONDecodeError`, caught by the stages, which record it in
`context.error`), whether or not a fenced block is present; and
`_parse_input` of `effect_v5.py` never raises, returning a best-effort
`{"raw_text": <completion response>}` dict when the reformatting
response is also unparseable. -/
theorem C2_extract_fallback_amended :
    (∀ t : String, extractFenced t = none → jsonParse t = none →
        extractSR t = .error "Expecting value")
    ∧ (∀ (t b : String), extractFenced t = some b → jsonParse b = none →
        extractSR t = .error "Expecting value")
    ∧ (∀ (ov : V5Oracle) (s : V5State) (t : String), s.input = .str t →
        jsonParse t = none → jsonParse ov.resp = none →
        parseInput5 ov s
          = { s with parsed_data := some (.obj [("raw_text", .str ov.resp)]) }) := by
  refine ⟨?_, ?_, ?_⟩
  · intro t hf hp
    unfold extractSR
    rw [hf, hp]
  · intro t b hf hp
    unfold extractSR
    rw [hf, hp]
  · intro ov s t hin hp hr
    obtain ⟨inp, hist, pd⟩ := s
    simp only at hin
    subst hin
    rw [parseInput5.eq_def]
    simp [hp, hr]

/-- Witness for C2 (amended): the non-JSON text `"hello"` makes the
extraction raise, and `_parse_input` fall back to the response dict. -/
theorem C2_extract_fallback_amended_witness :
    extractSR "hello" = .error "Expecting value"
    ∧ parseInput5 ⟨"not json"⟩ { input := .str "hello" }
        = { ({ input := .str "hello" } : V5State) with
            parsed_data := some (.obj [("raw_text", .str "not json")]) } :=
  ⟨C2_extract_fallback_amended.1 "hello" rfl rfl,
   C2_extract_fallback_amended.2.2 ⟨"not json"⟩ { input := .str "hello" } "hello" rfl rfl rfl⟩

/-- The claim of C6 fails as stated: a structured value containing a
backtick fence inside a string breaks the lazy fence regex, so the
round trip does not recover the value — extraction fails outright on
the serialization of `{"a": "<fence>"}`. -/
theorem C6_roundtrip_cex :
    extractSR ("```json\n" ++ Json.dumps (.obj [("a", .str "```")]) ++ "\n```")
      = .error "Expecting value"
    ∧ backtickFree (.obj [("a", .str "```")]) = false :=
  ⟨rfl, rfl⟩

/-- C6 (amended): for every structured value whose strings contain no
backtick-fence characters, serializing it into a fenced JSON block and
extracting recovers exactly the value — the first fenced block is the
one parsed (anything after its closing fence, including further fenced
blocks, is ignored) — and when no fence is present the whole text is
parsed, which also round-trips. -/
theorem C6_roundtrip_amended (v : Json) (hb : backtickFree v = true) (post : String) :
    extractSR ("```json\n" ++ Json.dumps v ++ "\n```" ++ post) = .ok v
    ∧ extractSR (Json.dumps v) = .ok v :=
  ⟨extractSR_wrap v hb post, extractSR_dumps v hb⟩

/-- Witness for C6 (amended): a fenced `{"overall_score": 4}` with a
second fenced block in the trailing text round-trips to exactly the
structured value. -/
theorem C6_roundtrip_amended_witness :
    extractSR ("```json\n" ++ Json.dumps (Json.obj [("overall_score", Json.num 4)])
        ++ "\n```" ++ " trailing ```json\n0\n```")
      = .ok (Json.obj [("overall_score", Json.num 4)]) :=
  (C6_roundtrip_amended (Json.obj [("overall_score", Json.num 4)]) rfl
    " trailing ```json\n0\n```").1

/-- The claim of C8 fails as stated: `calculate_control_metrics` of
`effectivenessv3.py`, on a context with no controls, records the error
AND writes a `"no data available"` sentinel into the `metrics` slot —
a second field modification. -/
theorem C8_missing_slot_cex :
    (calculate_control_metrics {}).error
        = some "No controls available for metric calculation"
    ∧ (calculate_control_metrics {}).metrics = some v3SentinelMetrics
    ∧ ({} : V3State).metrics = none
    ∧ calculate_control_metrics {}
        ≠ { ({} : V3State) with error := some "No controls available for metric calculation" } := by
  refine ⟨rfl, rfl, rfl, ?_⟩
  intro h
  have := congrArg V3State.metrics h
  simp [calculate_control_metrics, v3SentinelMetrics] at this

/-- C8 (amended): when a required input slot is absent, each cited stage
sets `error` to a descriptive message; `parse_input_data` of `eff_v4.py`
modifies no other field, while `calculate_control_metrics` of
`effectivenessv3.py` additionally writes the sentinel metrics record. -/
theorem C8_missing_slot_amended :
    (∀ s : V4State,
        (s.input_data = none ∨ ∃ d, s.input_data = some d ∧ pyFalsy d = true) →
        parse_input_data s = { s with error := some "Input data not provided" })
    ∧ (∀ s : V3State, s.controls.getD [] = [] →
        calculate_control_metrics s
          = { s with error := some "No controls available for metric calculation",
                     metrics := some v3SentinelMetrics }) := by
  constructor
  · intro s h
    rcases h with h | ⟨d, hd, hfal⟩
    · rw [parse_input_data.eq_def, h]
    · rw [parse_input_data.eq_def, hd]
      simp [hfal]
  · intro s h
    unfold calculate_control_metrics
    rw [h]
    rfl

/-- Witness for C8 (amended): the empty contexts of both agents. -/
theorem C8_missing_slot_amended_witness :
    parse_input_data {} = { ({} : V4State) with error := some "Input data not provided" }
    ∧ calculate_control_metrics {}
        = { ({} : V3State) with
            error := some "No controls available for metric calculation",
            metrics := some v3SentinelMetrics } :=
  ⟨C8_missing_slot_amended.1 {} (.inl rfl), C8_missing_slot_amended.2 {} rfl⟩

/-- The claim of C3 fails as stated: a run in which all three stages
succeed but the reassessment response carries `final_score: 7` reaches
`status = "completed"` with `final_rating = 7`, outside [1,5] — the code
never validates the parsed score. -/
theorem C3_happy_path_cex :
    (runTrace oracleScore7 (initState "ctrl")).map RState.status
      = ["evaluated", "reflected", "completed"]
    ∧ (runGraph oracleScore7 (initState "ctrl")).final_rating = some (.num 7)
    ∧ ¬∃ n : Int, (runGraph oracleScore7 (initState "ctrl")).final_rating
        = some (.num n) ∧ 1 ≤ n ∧ n ≤ 5 := by
  refine ⟨rfl, rfl, ?_⟩
  rintro ⟨n, hn, h1, h5⟩
  rw [show (runGraph oracleScore7 (initState "ctrl")).final_rating
        = some (Json.num 7) from rfl] at hn
  simp only [Option.some.injEq, Json.num.injEq] at hn
  omega

/-- C3 (amended): for every run in which all three stages succeed and
whose completion responses conform to the prompts' declared formats
(non-null narrative fields; `final_score` an integer in [1,5]), the
terminal context has `status = "completed"`, the three narrative slots
`assessment_learned`, `reflection` and `final_assessment` are populated
(assigned and non-`None`), and `final_rating` lies in [1,5]. -/
theorem C3_happy_path_amended (o : Oracle) (t : String)
    (hp : happyPath o t)
    (c₁ : String) (r₁ : Json) (hc₁ : o.evalResp = .ok c₁) (hr₁ : extractSR c₁ = .ok r₁)
    (hoa : ∀ x, pyGet r₁ "overall_assessment" = .ok x → x ≠ Json.null)
    (c₃ : String) (r₃ : Json) (hc₃ : o.reassessResp = .ok c₃) (hr₃ : extractSR c₃ = .ok r₃)
    (hfs : ∃ n : Int, pyGet r₃ "final_score" = .ok (.num n) ∧ 1 ≤ n ∧ n ≤ 5)
    (hfa : ∀ x, pyGet r₃ "final_assessment" = .ok x → x ≠ Json.null) :
    (runGraph o (initState t)).status = "completed"
    ∧ isPopulated (runGraph o (initState t)).assessment_learned
    ∧ isPopulated (runGraph o (initState t)).reflection
    ∧ isPopulated (runGraph o (initState t)).final_assessment
    ∧ ∃ n : Int, (runGraph o (initState t)).final_rating = some (.num n)
        ∧ 1 ≤ n ∧ n ≤ 5 := by
  unfold happyPath at hp
  have htr := runTrace_eq o (initState t)
  by_cases h1 : errTruthy (evaluate_effectiveness o (initState t)).error = true
  · rw [if_pos h1] at htr
    rw [htr] at hp
    simp at hp
  by_cases h2 : errTruthy
      (self_reflection o (evaluate_effectiveness o (initState t))).error = true
  · rw [if_neg h1, if_pos h2] at htr
    rw [htr] at hp
    simp at hp
  rw [if_neg h1, if_neg h2] at htr
  rw [htr] at hp
  simp only [List.map, List.cons.injEq, and_true] at hp
  obtain ⟨hst1, hst2, hst3⟩ := hp
  have hg : runGraph o (initState t)
      = reassess o (self_reflection o (evaluate_effectiveness o (initState t))) := by
    unfold runGraph
    rw [htr]
    rfl
  rcases evaluate_shape o (initState t) with ⟨e, _, hst, _⟩
    | ⟨c, r, me, sc, oa, rat, hcc, hrr, hsc, hoaa, heq1⟩
  · rw [hst] at hst1
    exact absurd hst1 (by decide)
  rw [hc₁] at hcc
  have hc' : c₁ = c := by simpa using hcc
  subst hc'
  rw [hr₁] at hrr
  have hr' : r₁ = r := by simpa using hrr
  subst hr'
  have hoan : oa ≠ Json.null := hoa oa hoaa
  rcases self_reflection_shape o (evaluate_effectiveness o (initState t)) with
    ⟨e, _, hst, _⟩ | ⟨rf, heq2⟩
  · rw [hst] at hst2
    exact absurd hst2 (by decide)
  rcases reassess_shape o (self_reflection o (evaluate_effectiveness o (initState t))) with
    ⟨e, _, hst, _⟩ | ⟨c', r', fs, fa, hcc3, hrr3, hfs3, hfa3, heq3⟩
  · rw [hst] at hst3
    exact absurd hst3 (by decide)
  rw [hc₃] at hcc3
  have hc3' : c₃ = c' := by simpa using hcc3
  subst hc3'
  rw [hr₃] at hrr3
  have hr3' : r₃ = r' := by simpa using hrr3
  subst hr3'
  obtain ⟨n, hfsn, hn1, hn5⟩ := hfs
  rw [hfs3] at hfsn
  have hfseq : fs = .num n := by simpa using hfsn
  subst hfseq
  have hfan : fa ≠ Json.null := hfa fa hfa3
  rw [hg, heq3, heq2, heq1]
  exact ⟨rfl, ⟨oa, rfl, hoan⟩, ⟨.str rf, rfl, by simp⟩, ⟨fa, rfl, hfan⟩,
    n, rfl, hn1, hn5⟩

/-- Witness for C3 (amended): the well-formed happy-path oracle with
`final_score = 3`. -/
theorem C3_happy_path_amended_witness :
    (runGraph oracleScore3 (initState "ctrl")).status = "completed"
    ∧ isPopulated (runGraph oracleScore3 (initState "ctrl")).assessment_learned
    ∧ isPopulated (runGraph oracleScore3 (initState "ctrl")).reflection
    ∧ isPopulated (runGraph oracleScore3 (initState "ctrl")).final_assessment
    ∧ ∃ n : Int, (runGraph oracleScore3 (initState "ctrl")).final_rating
        = some (.num n) ∧ 1 ≤ n ∧ n ≤ 5 := by
  refine C3_happy_path_amended oracleScore3 "ctrl" rfl evalRespWf
    (Json.obj [("metrics", Json.obj [("clarity",
        Json.obj [("score", Json.num 5), ("rationale", Json.str "clear")])]),
      ("overall_score", Json.num 4), ("overall_assessment", Json.str "good")])
    rfl rfl ?_ (reasRespWf 3)
    (Json.obj [("final_score", Json.num 3), ("final_assessment", Json.str "fine")])
    rfl rfl ⟨3, rfl, by omega, by omega⟩ ?_
  · intro x hx
    have h0 : pyGet (Json.obj [("metrics", Json.obj [("clarity",
          Json.obj [("score", Json.num 5), ("rationale", Json.str "clear")])]),
        ("overall_score", Json.num 4), ("overall_assessment", Json.str "good")])
        "overall_assessment" = Except.ok (Json.str "good") := rfl
    rw [h0] at hx
    simp only [Except.ok.injEq] at hx
    rw [← hx]
    simp
  · intro x hx
    have h0 : pyGet (Json.obj [("final_score", Json.num 3),
        ("final_assessment", Json.str "fine")]) "final_assessment"
        = Except.ok (Json.str "fine") := rfl
    rw [h0] at hx
    simp only [Except.ok.injEq] at hx
    rw [← hx]
    simp
